import Mathlib

/-!
Verification of the directory-priority scheduling core of the vivbliss
scraper (src/vivbliss_scraper/vivbliss_scraper/utils/priority_scheduler.py).

The Python classes DirectoryTracker, PriorityRequestQueue and
DirectoryPriorityScheduler are shallowly embedded as Lean structures with
explicit state passing.  Modelling conventions:

* Python dicts (insertion ordered) are association lists
  List (String × α); dict membership, indexing and in-place update are the
  helper functions lookupA, dictSet and modifyA below.
* Python sets are insertion-ordered duplicate-free lists; set.add appends
  when absent (setAdd), set.discard filters (setDiscard).
* collections.deque is a List with append at the tail and popleft at the
  head; defaultdict(deque) and defaultdict(set) keyed by directory path are
  association lists whose missing keys read as empty (dpGet).
* A scrapy Request is identified by its url : String.  The fallback
  request_fingerprint of the source hashes the url; the hash is modelled as
  an injective encoding of the url, which is faithful for every property
  stated in terms of fingerprint equality.
* datetime.now() is an external monotone clock, passed explicitly as now.
* Python float division in get_directory_progress is modelled as exact
  division in the rationals.
* Python list.sort(key=level) is a stable sort; it is modelled by the
  stable List.insertionSort of Mathlib, which computes the same list.
-/

namespace Vivbliss

/-- Membership test and read of a Python dict: first entry with the key. -/
def lookupA {α : Type} (l : List (String × α)) (k : String) : Option α :=
  (l.find? (fun e => decide (e.1 = k))).map (·.2)

/-- In-place update of the value stored at key k (keys are unique in every
state built by the operations, so mapping over all entries is the Python
dict update). -/
def modifyA {α : Type} (l : List (String × α)) (k : String) (f : α → α) :
    List (String × α) :=
  l.map (fun e => if e.1 = k then (e.1, f e.2) else e)

/-- Python dict assignment d[k] = v: overwrite if present, else append. -/
def dictSet (l : List (String × String)) (k v : String) :
    List (String × String) :=
  if (lookupA l k).isSome then modifyA l k (fun _ => v) else l ++ [(k, v)]

/-- Python set.add on an insertion-ordered duplicate-free list. -/
def setAdd (s : List String) (x : String) : List String :=
  if x ∈ s then s else s ++ [x]

/-- Python set.discard. -/
def setDiscard (s : List String) (x : String) : List String :=
  s.filter (fun y => decide (y ≠ x))

/-- Read of defaultdict(set) / defaultdict(deque): missing keys are empty. -/
def dpGet (l : List (String × List String)) (k : String) : List String :=
  (lookupA l k).getD []

/-- defaultdict(set)[k].add v. -/
def dpAdd (l : List (String × List String)) (k v : String) :
    List (String × List String) :=
  match lookupA l k with
  | some _ => modifyA l k (fun s => if v ∈ s then s else s ++ [v])
  | none => l ++ [(k, [v])]

/-- defaultdict(deque)[k].append v. -/
def dqAppend (l : List (String × List String)) (k v : String) :
    List (String × List String) :=
  match lookupA l k with
  | some _ => modifyA l k (fun s => s ++ [v])
  | none => l ++ [(k, [v])]

/-- The status strings stored in a directory record of the tracker. -/
inductive DirStatus where
  | discovered
  | active
  | completed
deriving DecidableEq, Repr

/-- The per-directory record kept in DirectoryTracker.directories.  The
source also stores the raw info dict and a completed_at timestamp; both are
write-only there and are omitted. -/
structure DirInfo where
  level : Nat
  discovered_at : Nat
  parent : Option String
  products_discovered : Nat
  products_completed : Nat
  status : DirStatus
deriving DecidableEq, Repr

/-- The stats dict of DirectoryTracker. -/
structure TrackerStats where
  directories_discovered : Nat
  directories_completed : Nat
  products_discovered : Nat
  products_completed : Nat
  products_failed : Nat
deriving DecidableEq, Repr

/-- State of the Python class DirectoryTracker. -/
structure DirectoryTracker where
  directories : List (String × DirInfo)
  directory_products : List (String × List String)
  completed_directories : List String
  active_directories : List String
  discovered_products : List (String × String)
  completed_products : List String
  failed_products : List String
  stats : TrackerStats
deriving DecidableEq, Repr

/-- DirectoryTracker.__init__. -/
def initTracker : DirectoryTracker :=
  { directories := [], directory_products := [], completed_directories := []
    active_directories := [], discovered_products := []
    completed_products := [], failed_products := []
    stats := ⟨0, 0, 0, 0, 0⟩ }

namespace DirectoryTracker

/-- DirectoryTracker.add_directory.  The info dict is reduced to its two
read fields: level (defaulting to 1 when absent) and parent_category. -/
def add_directory (t : DirectoryTracker) (directory_path : String)
    (info_level : Option Nat) (info_parent : Option String) (now : Nat) :
    DirectoryTracker :=
  if (lookupA t.directories directory_path).isSome then t
  else
    { t with
      directories := t.directories ++
        [(directory_path,
          { level := info_level.getD 1, discovered_at := now
            parent := info_parent, products_discovered := 0
            products_completed := 0, status := .discovered })]
      stats := { t.stats with
        directories_discovered := t.stats.directories_discovered + 1 } }

/-- DirectoryTracker.add_product_to_directory.  The Python method has no
return statement. -/
def add_product_to_directory (t : DirectoryTracker)
    (directory_path product_url : String) (now : Nat) : DirectoryTracker :=
  let t1 :=
    if (lookupA t.directories directory_path).isSome then t
    else t.add_directory directory_path (some 1) none now
  { t1 with
    directory_products := dpAdd t1.directory_products directory_path product_url
    discovered_products := dictSet t1.discovered_products product_url directory_path
    directories := modifyA t1.directories directory_path
      (fun i => { i with products_discovered := i.products_discovered + 1 })
    stats := { t1.stats with
      products_discovered := t1.stats.products_discovered + 1 } }

/-- The failed_count computed inside _check_directory_completion and
get_directory_progress: failed urls whose current owner is the path. -/
def failedCountFor (t : DirectoryTracker) (directory_path : String) : Nat :=
  (t.failed_products.filter
    (fun url => decide (lookupA t.discovered_products url = some directory_path))).length

/-- DirectoryTracker._check_directory_completion.  When the path is not a
key of directories the source would raise KeyError; the only callers pass
an owner path taken from discovered_products, which is always registered,
so that branch is unreachable and modelled as the identity. -/
def check_directory_completion (t : DirectoryTracker)
    (directory_path : String) : DirectoryTracker :=
  if directory_path ∈ t.completed_directories then t
  else
    match lookupA t.directories directory_path with
    | none => t
    | some info =>
      let total_products := (dpGet t.directory_products directory_path).length
      let completed_count := info.products_completed
      let failed_count := failedCountFor t directory_path
      if total_products ≤ completed_count + failed_count ∧ 0 < total_products then
        { t with
          completed_directories := setAdd t.completed_directories directory_path
          active_directories := setDiscard t.active_directories directory_path
          directories := modifyA t.directories directory_path
            (fun i => { i with status := .completed })
          stats := { t.stats with
            directories_completed := t.stats.directories_completed + 1 } }
      else t

/-- DirectoryTracker.mark_product_completed. -/
def mark_product_completed (t : DirectoryTracker) (product_url : String) :
    Bool × DirectoryTracker :=
  match lookupA t.discovered_products product_url with
  | some directory_path =>
    let t1 :=
      { t with
        completed_products := setAdd t.completed_products product_url
        directories := modifyA t.directories directory_path
          (fun i => { i with products_completed := i.products_completed + 1 })
        stats := { t.stats with
          products_completed := t.stats.products_completed + 1 } }
    (true, t1.check_directory_completion directory_path)
  | none => (false, t)

/-- DirectoryTracker.mark_product_failed. -/
def mark_product_failed (t : DirectoryTracker) (product_url : String) :
    Bool × DirectoryTracker :=
  match lookupA t.discovered_products product_url with
  | some directory_path =>
    let t1 :=
      { t with
        failed_products := setAdd t.failed_products product_url
        stats := { t.stats with
          products_failed := t.stats.products_failed + 1 } }
    (true, t1.check_directory_completion directory_path)
  | none => (false, t)

/-- DirectoryTracker.is_directory_completed. -/
def is_directory_completed (t : DirectoryTracker) (directory_path : String) :
    Bool :=
  decide (directory_path ∈ t.completed_directories)

/-- The comparison used by available_directories.sort(key level). -/
def levelLE (a b : String × DirInfo) : Prop := a.2.level ≤ b.2.level

instance : DecidableRel levelLE := fun a b => Nat.decLe a.2.level b.2.level

/-- DirectoryTracker.get_next_priority_directory.  The Python sort is
stable, so sorting by level and taking element 0 yields the earliest
registered entry of minimal level; the stable insertionSort computes the
same list. -/
def get_next_priority_directory (t : DirectoryTracker) :
    Option String × DirectoryTracker :=
  match t.active_directories.find?
      (fun p => !(t.is_directory_completed p)) with
  | some p => (some p, t)
  | none =>
    let available := t.directories.filter
      (fun e => decide (e.1 ∉ t.completed_directories))
    match available.insertionSort levelLE with
    | [] => (none, t)
    | selected :: _ =>
      (some selected.1,
        { t with
          active_directories := setAdd t.active_directories selected.1
          directories := modifyA t.directories selected.1
            (fun i => { i with status := .active }) })

/-- The record returned by DirectoryTracker.get_directory_progress for a
registered path.  remaining_products is Python int subtraction, which can
go negative, hence Int; completion_rate is float division, modelled in ℚ. -/
structure Progress where
  path : String
  total_products : Nat
  completed_products : Nat
  failed_products : Nat
  remaining_products : Int
  completion_rate : ℚ
  status : DirStatus
  level : Nat
deriving DecidableEq, Repr

/-- DirectoryTracker.get_directory_progress; the source returns the empty
dict for an unregistered path, modelled as none. -/
def get_directory_progress (t : DirectoryTracker) (directory_path : String) :
    Option Progress :=
  match lookupA t.directories directory_path with
  | none => none
  | some info =>
    let total_products := (dpGet t.directory_products directory_path).length
    let completed_count := info.products_completed
    let failed_count := failedCountFor t directory_path
    some
      { path := directory_path
        total_products := total_products
        completed_products := completed_count
        failed_products := failed_count
        remaining_products :=
          (total_products : Int) - completed_count - failed_count
        completion_rate :=
          ((completed_count + failed_count : Nat) : ℚ) / ((max total_products 1 : Nat) : ℚ)
        status := info.status
        level := info.level }

end DirectoryTracker

/-- The fallback request_fingerprint of the source returns a string
derived from the url by hashing; the hash is modelled as the identity
embedding of the url. -/
def request_fingerprint (url : String) : String := "fp_" ++ url

/-- State of the Python class PriorityRequestQueue.  Requests are their
urls. -/
structure PriorityRequestQueue where
  category_requests : List String
  product_requests : List (String × List String)
  other_requests : List String
  seen_requests : List String
deriving DecidableEq, Repr

/-- PriorityRequestQueue.__init__. -/
def initQueue : PriorityRequestQueue :=
  { category_requests := [], product_requests := []
    other_requests := [], seen_requests := [] }

namespace PriorityRequestQueue

/-- PriorityRequestQueue.add_category_request. -/
def add_category_request (q : PriorityRequestQueue) (url : String) :
    Bool × PriorityRequestQueue :=
  let fingerprint := request_fingerprint url
  if fingerprint ∈ q.seen_requests then (false, q)
  else
    (true,
      { q with
        seen_requests := q.seen_requests ++ [fingerprint]
        category_requests := q.category_requests ++ [url] })

/-- PriorityRequestQueue.add_product_request. -/
def add_product_request (q : PriorityRequestQueue) (url directory_path : String) :
    Bool × PriorityRequestQueue :=
  let fingerprint := request_fingerprint url
  if fingerprint ∈ q.seen_requests then (false, q)
  else
    (true,
      { q with
        seen_requests := q.seen_requests ++ [fingerprint]
        product_requests := dqAppend q.product_requests directory_path url })

/-- PriorityRequestQueue.add_other_request. -/
def add_other_request (q : PriorityRequestQueue) (url : String) :
    Bool × PriorityRequestQueue :=
  let fingerprint := request_fingerprint url
  if fingerprint ∈ q.seen_requests then (false, q)
  else
    (true,
      { q with
        seen_requests := q.seen_requests ++ [fingerprint]
        other_requests := q.other_requests ++ [url] })

/-- Steps 3 and 4 of PriorityRequestQueue.get_next_request: the first
non-empty product deque of a directory other than the priority one, else
the other_requests deque.  The Python loop test is
queue and directory_path != priority_directory; comparing a string with
None is always unequal, which the Option comparison reproduces. -/
def get_next_fallback (q : PriorityRequestQueue)
    (priority_directory : Option String) :
    Option String × PriorityRequestQueue :=
  match q.product_requests.find?
      (fun e => decide (e.2 ≠ [] ∧ some e.1 ≠ priority_directory)) with
  | some e =>
    match e.2 with
    | url :: _ =>
      (some url,
        { q with product_requests :=
            modifyA q.product_requests e.1 (fun s => s.tail) })
    | [] => (none, q)
  | none =>
    match q.other_requests with
    | url :: rest => (some url, { q with other_requests := rest })
    | [] => (none, q)

/-- Step 2 of PriorityRequestQueue.get_next_request: the category deque. -/
def get_next_from_category (q : PriorityRequestQueue)
    (priority_directory : Option String) :
    Option String × PriorityRequestQueue :=
  match q.category_requests with
  | url :: rest => (some url, { q with category_requests := rest })
  | [] => q.get_next_fallback priority_directory

/-- PriorityRequestQueue.get_next_request.  The guard
if priority_directory and priority_directory in self.product_requests is
false for None and for the empty string. -/
def get_next_request (q : PriorityRequestQueue)
    (priority_directory : Option String) :
    Option String × PriorityRequestQueue :=
  match priority_directory with
  | some p =>
    if p ≠ "" then
      match lookupA q.product_requests p with
      | some (url :: _) =>
        (some url,
          { q with product_requests :=
              modifyA q.product_requests p (fun s => s.tail) })
      | some [] => q.get_next_from_category priority_directory
      | none => q.get_next_from_category priority_directory
    else q.get_next_from_category priority_directory
  | none => q.get_next_from_category priority_directory

/-- The total_requests entry of PriorityRequestQueue.get_queue_stats. -/
def total_requests (q : PriorityRequestQueue) : Nat :=
  q.category_requests.length +
    (q.product_requests.map (fun e => e.2.length)).sum +
    q.other_requests.length

end PriorityRequestQueue

/-- State of the Python class DirectoryPriorityScheduler. -/
structure DirectoryPriorityScheduler where
  directory_tracker : DirectoryTracker
  request_queue : PriorityRequestQueue
  current_priority_directory : Option String
  scheduler_enabled : Bool
deriving DecidableEq, Repr

/-- DirectoryPriorityScheduler.__init__. -/
def initScheduler : DirectoryPriorityScheduler :=
  { directory_tracker := initTracker, request_queue := initQueue
    current_priority_directory := none, scheduler_enabled := true }

namespace DirectoryPriorityScheduler

/-- DirectoryPriorityScheduler.discover_category. -/
def discover_category (s : DirectoryPriorityScheduler) (category_path : String)
    (info_level : Option Nat) (info_parent : Option String) (now : Nat) :
    DirectoryPriorityScheduler :=
  { s with directory_tracker :=
      s.directory_tracker.add_directory category_path info_level info_parent now }

/-- DirectoryPriorityScheduler.discover_product.  The Python method has no
return statement. -/
def discover_product (s : DirectoryPriorityScheduler)
    (product_url directory_path : String) (now : Nat) :
    DirectoryPriorityScheduler :=
  { s with directory_tracker :=
      s.directory_tracker.add_product_to_directory directory_path product_url now }

/-- DirectoryPriorityScheduler.add_category_request. -/
def add_category_request (s : DirectoryPriorityScheduler) (url : String) :
    Bool × DirectoryPriorityScheduler :=
  let r := s.request_queue.add_category_request url
  (r.1, { s with request_queue := r.2 })

/-- DirectoryPriorityScheduler.add_product_request: discover the product,
then enqueue. -/
def add_product_request (s : DirectoryPriorityScheduler)
    (url directory_path : String) (now : Nat) :
    Bool × DirectoryPriorityScheduler :=
  let s1 := s.discover_product url directory_path now
  let r := s1.request_queue.add_product_request url directory_path
  (r.1, { s1 with request_queue := r.2 })

/-- DirectoryPriorityScheduler._update_priority_directory. -/
def update_priority_directory (s : DirectoryPriorityScheduler) :
    DirectoryPriorityScheduler :=
  let cur :=
    match s.current_priority_directory with
    | some c =>
      if s.directory_tracker.is_directory_completed c then none else some c
    | none => none
  match cur with
  | some c => { s with current_priority_directory := some c }
  | none =>
    let r := s.directory_tracker.get_next_priority_directory
    { s with directory_tracker := r.2, current_priority_directory := r.1 }

/-- DirectoryPriorityScheduler.get_next_request. -/
def get_next_request (s : DirectoryPriorityScheduler) :
    Option String × DirectoryPriorityScheduler :=
  if s.scheduler_enabled then
    let s1 := s.update_priority_directory
    let r := s1.request_queue.get_next_request s1.current_priority_directory
    (r.1, { s1 with request_queue := r.2 })
  else
    let r := s.request_queue.get_next_request none
    (r.1, { s with request_queue := r.2 })

/-- DirectoryPriorityScheduler.mark_product_completed (returns None). -/
def mark_product_completed (s : DirectoryPriorityScheduler) (url : String) :
    DirectoryPriorityScheduler :=
  { s with directory_tracker := (s.directory_tracker.mark_product_completed url).2 }

/-- DirectoryPriorityScheduler.mark_product_failed (returns None). -/
def mark_product_failed (s : DirectoryPriorityScheduler) (url : String) :
    DirectoryPriorityScheduler :=
  { s with directory_tracker := (s.directory_tracker.mark_product_failed url).2 }

/-- DirectoryPriorityScheduler.enable_scheduler. -/
def enable_scheduler (s : DirectoryPriorityScheduler) :
    DirectoryPriorityScheduler :=
  { s with scheduler_enabled := true }

/-- DirectoryPriorityScheduler.disable_scheduler. -/
def disable_scheduler (s : DirectoryPriorityScheduler) :
    DirectoryPriorityScheduler :=
  { s with scheduler_enabled := false }

end DirectoryPriorityScheduler

/-! ### Lemmas about the dict and set helpers -/

theorem lookupA_nil {α : Type} (k : String) : lookupA ([] : List (String × α)) k = none := rfl

theorem lookupA_cons {α : Type} (e : String × α) (l : List (String × α)) (k : String) :
    lookupA (e :: l) k = if e.1 = k then some e.2 else lookupA l k := by
  simp only [lookupA, List.find?_cons]
  by_cases h : e.1 = k <;> simp [h]

theorem lookupA_append {α : Type} (l1 l2 : List (String × α)) (k : String) :
    lookupA (l1 ++ l2) k = (lookupA l1 k).or (lookupA l2 k) := by
  simp only [lookupA, List.find?_append]
  cases List.find? (fun e => decide (e.1 = k)) l1 <;> simp

theorem lookupA_eq_none_iff {α : Type} {l : List (String × α)} {k : String} :
    lookupA l k = none ↔ k ∉ l.map Prod.fst := by
  induction l with
  | nil => simp [lookupA_nil]
  | cons e es ih =>
    rw [lookupA_cons]
    by_cases h : e.1 = k
    · simp [h]
    · have h2 : ¬ k = e.1 := fun hk => h hk.symm
      simp [h, h2, ih]

theorem lookupA_isSome_iff {α : Type} {l : List (String × α)} {k : String} :
    (lookupA l k).isSome ↔ k ∈ l.map Prod.fst := by
  rw [Option.isSome_iff_ne_none, ne_eq, lookupA_eq_none_iff, not_not]

theorem mem_of_lookupA {α : Type} {l : List (String × α)} {k : String} {v : α}
    (h : lookupA l k = some v) : (k, v) ∈ l := by
  induction l with
  | nil => simp [lookupA_nil] at h
  | cons e es ih =>
    rw [lookupA_cons] at h
    by_cases he : e.1 = k
    · rw [if_pos he] at h
      obtain rfl : e.2 = v := Option.some_inj.mp h
      exact List.mem_cons.mpr (Or.inl (by rw [← he]))
    · rw [if_neg he] at h
      exact List.mem_cons_of_mem _ (ih h)

theorem lookupA_of_mem {α : Type} {l : List (String × α)} {k : String} {v : α}
    (hn : (l.map Prod.fst).Nodup) (h : (k, v) ∈ l) : lookupA l k = some v := by
  induction l with
  | nil => simp at h
  | cons e es ih =>
    simp only [List.map_cons, List.nodup_cons] at hn
    rcases List.mem_cons.mp h with h1 | h1
    · rw [← h1, lookupA_cons, if_pos rfl]
    · rw [lookupA_cons]
      have hk : e.1 ≠ k := by
        intro hek
        exact hn.1 (hek ▸ (List.mem_map_of_mem Prod.fst h1))
      rw [if_neg hk]
      exact ih hn.2 h1

theorem map_fst_modifyA {α : Type} (l : List (String × α)) (k : String) (f : α → α) :
    (modifyA l k f).map Prod.fst = l.map Prod.fst := by
  induction l with
  | nil => rfl
  | cons e es ih =>
    simp only [modifyA, List.map_cons] at *
    by_cases h : e.1 = k <;> simp [h, ih]

theorem lookupA_modifyA_self {α : Type} (l : List (String × α)) (k : String) (f : α → α) :
    lookupA (modifyA l k f) k = (lookupA l k).map f := by
  induction l with
  | nil => rfl
  | cons e es ih =>
    simp only [modifyA, List.map_cons]
    by_cases h : e.1 = k
    · rw [if_pos h, lookupA_cons, lookupA_cons, if_pos h, if_pos h]
      rfl
    · rw [if_neg h, lookupA_cons, lookupA_cons, if_neg h, if_neg h]
      exact ih

theorem lookupA_modifyA_ne {α : Type} (l : List (String × α)) {k k2 : String}
    (f : α → α) (h : k2 ≠ k) : lookupA (modifyA l k f) k2 = lookupA l k2 := by
  induction l with
  | nil => rfl
  | cons e es ih =>
    simp only [modifyA, List.map_cons]
    by_cases he : e.1 = k
    · rw [if_pos he, lookupA_cons, lookupA_cons]
      have : ¬ e.1 = k2 := fun hek => h (hek ▸ he ▸ rfl)
      rw [if_neg (he ▸ this), if_neg this]
      exact ih
    · rw [if_neg he, lookupA_cons, lookupA_cons]
      by_cases he2 : e.1 = k2
      · rw [if_pos he2, if_pos he2]
      · rw [if_neg he2, if_neg he2]
        exact ih

theorem modifyA_of_not_mem {α : Type} {l : List (String × α)} {k : String}
    (f : α → α) (h : k ∉ l.map Prod.fst) : modifyA l k f = l := by
  induction l with
  | nil => rfl
  | cons e es ih =>
    simp only [List.map_cons, List.mem_cons, not_or] at h
    simp only [modifyA, List.map_cons]
    rw [if_neg (fun he => h.1 he.symm)]
    have := ih h.2
    simp only [modifyA] at this
    rw [this]

theorem map_snd_proj_modifyA {α β : Type} (l : List (String × α)) (k : String)
    (f : α → α) (g : α → β) (hg : ∀ i, g (f i) = g i) :
    (modifyA l k f).map (fun e => g e.2) = l.map (fun e => g e.2) := by
  induction l with
  | nil => rfl
  | cons e es ih =>
    simp only [modifyA, List.map_cons] at *
    by_cases h : e.1 = k <;> simp [h, ih, hg]

theorem map_disc_modifyA (l : List (String × DirInfo)) (k : String)
    (f : DirInfo → DirInfo) (hf : ∀ i, (f i).discovered_at = i.discovered_at) :
    (modifyA l k f).map (fun e => e.2.discovered_at) =
      l.map (fun e => e.2.discovered_at) :=
  map_snd_proj_modifyA l k f (fun i => i.discovered_at) hf

theorem lookupA_dictSet_self (l : List (String × String)) (k v : String) :
    lookupA (dictSet l k v) k = some v := by
  unfold dictSet
  by_cases h : (lookupA l k).isSome
  · rw [if_pos h, lookupA_modifyA_self]
    rcases Option.isSome_iff_exists.mp h with ⟨w, hw⟩
    rw [hw]
    rfl
  · rw [if_neg h, lookupA_append]
    rw [Option.not_isSome_iff_eq_none] at h
    rw [h]
    simp [lookupA_cons]

theorem lookupA_dictSet_ne (l : List (String × String)) {k k2 : String} (v : String)
    (h : k2 ≠ k) : lookupA (dictSet l k v) k2 = lookupA l k2 := by
  unfold dictSet
  by_cases hs : (lookupA l k).isSome
  · rw [if_pos hs, lookupA_modifyA_ne _ _ h]
  · rw [if_neg hs, lookupA_append]
    have h2 : lookupA [(k, v)] k2 = none := by
      rw [lookupA_cons, if_neg (fun he => h he.symm)]
      rfl
    rw [h2]
    cases lookupA l k2 <;> rfl

theorem mem_setAdd {s : List String} {x y : String} :
    x ∈ setAdd s y ↔ x ∈ s ∨ x = y := by
  unfold setAdd
  by_cases h : y ∈ s
  · rw [if_pos h]
    constructor
    · exact Or.inl
    · rintro (hx | rfl)
      · exact hx
      · exact h
  · rw [if_neg h]
    simp

theorem setAdd_of_mem {s : List String} {y : String} (h : y ∈ s) : setAdd s y = s :=
  if_pos h

theorem length_setAdd_le (s : List String) (y : String) :
    (setAdd s y).length ≤ s.length + 1 := by
  unfold setAdd
  by_cases h : y ∈ s <;> simp [h]

theorem mem_setDiscard {s : List String} {x y : String} :
    x ∈ setDiscard s y ↔ x ∈ s ∧ x ≠ y := by
  unfold setDiscard
  simp

theorem dpGet_dpAdd_self (l : List (String × List String)) (k v : String) :
    dpGet (dpAdd l k v) k =
      (if v ∈ dpGet l k then dpGet l k else dpGet l k ++ [v]) := by
  unfold dpAdd dpGet
  cases h : lookupA l k with
  | none =>
    rw [lookupA_append, h, lookupA_cons, if_pos rfl]
    simp
  | some s =>
    rw [lookupA_modifyA_self, h]
    simp

theorem dpGet_dpAdd_ne (l : List (String × List String)) {k k2 : String} (v : String)
    (h : k2 ≠ k) : dpGet (dpAdd l k v) k2 = dpGet l k2 := by
  unfold dpAdd dpGet
  cases hl : lookupA l k with
  | none =>
    rw [lookupA_append, lookupA_cons, if_neg (fun he => h he.symm)]
    cases lookupA l k2 <;> simp [lookupA_nil]
  | some s => rw [lookupA_modifyA_ne _ _ h]

theorem dpGet_dqAppend_self (l : List (String × List String)) (k v : String) :
    dpGet (dqAppend l k v) k = dpGet l k ++ [v] := by
  unfold dqAppend dpGet
  cases h : lookupA l k with
  | none =>
    rw [lookupA_append, h, lookupA_cons, if_pos rfl]
    simp
  | some s =>
    rw [lookupA_modifyA_self, h]
    simp

theorem dpGet_dqAppend_ne (l : List (String × List String)) {k k2 : String} (v : String)
    (h : k2 ≠ k) : dpGet (dqAppend l k v) k2 = dpGet l k2 := by
  unfold dqAppend dpGet
  cases hl : lookupA l k with
  | none =>
    rw [lookupA_append, lookupA_cons, if_neg (fun he => h he.symm)]
    cases lookupA l k2 <;> simp [lookupA_nil]
  | some s => rw [lookupA_modifyA_ne _ _ h]

theorem map_fst_dqAppend (l : List (String × List String)) (k v : String) :
    (dqAppend l k v).map Prod.fst =
      (if (lookupA l k).isSome then l.map Prod.fst else l.map Prod.fst ++ [k]) := by
  unfold dqAppend
  cases h : lookupA l k with
  | none => simp [h]
  | some s => simp [h, map_fst_modifyA]

theorem sum_len_dqAppend (l : List (String × List String)) (k v : String)
    (hn : (l.map Prod.fst).Nodup) :
    ((dqAppend l k v).map (fun e => e.2.length)).sum =
      (l.map (fun e => e.2.length)).sum + 1 := by
  unfold dqAppend
  cases h : lookupA l k with
  | none => simp
  | some s =>
    induction l with
    | nil => simp [lookupA_nil] at h
    | cons e es ih =>
      simp only [List.map_cons, List.nodup_cons] at hn
      rw [lookupA_cons] at h
      by_cases he : e.1 = k
      · rw [if_pos he] at h
        have : modifyA es k (fun s => s ++ [v]) = es :=
          modifyA_of_not_mem _ (he ▸ hn.1)
        simp only [modifyA, List.map_cons, if_pos he]
        simp only [modifyA] at this
        rw [this]
        simp
        omega
      · rw [if_neg he] at h
        simp only [modifyA, List.map_cons, if_neg he]
        have := ih hn.2 h
        simp only [modifyA] at this
        simp only [List.map_cons, List.sum_cons] at *
        omega

/-! ### The head of the stable sort by level is the earliest entry of
minimal level -/

instance : IsTotal (String × DirInfo) DirectoryTracker.levelLE :=
  ⟨fun a b => Nat.le_total a.2.level b.2.level⟩

instance : IsTrans (String × DirInfo) DirectoryTracker.levelLE :=
  ⟨fun _ _ _ hab hbc => Nat.le_trans hab hbc⟩

theorem insertionSort_head_first_min {l : List (String × DirInfo)}
    {sel : String × DirInfo} {rest : List (String × DirInfo)}
    (hnd : l.Nodup)
    (h : l.insertionSort DirectoryTracker.levelLE = sel :: rest) :
    sel ∈ l ∧ (∀ e ∈ l, sel.2.level ≤ e.2.level) ∧
      ∃ pre post, l = pre ++ sel :: post ∧
        ∀ e ∈ pre, sel.2.level < e.2.level := by
  have hperm := List.perm_insertionSort DirectoryTracker.levelLE l
  have hmem : sel ∈ l := hperm.mem_iff.mp (h ▸ List.mem_cons_self sel rest)
  have hsorted := List.sorted_insertionSort DirectoryTracker.levelLE l
  rw [h] at hsorted
  have hmin : ∀ e ∈ l, sel.2.level ≤ e.2.level := by
    intro e he
    have : e ∈ sel :: rest := h ▸ hperm.mem_iff.mpr he
    rcases List.mem_cons.mp this with rfl | hr
    · exact Nat.le_refl _
    · exact List.rel_of_sorted_cons hsorted e hr
  refine ⟨hmem, hmin, ?_⟩
  obtain ⟨pre, post, rfl⟩ := List.append_of_mem hmem
  refine ⟨pre, post, rfl, ?_⟩
  intro e he
  by_contra hlt
  have hle : DirectoryTracker.levelLE e sel :=
    Nat.le_of_not_lt (fun hgt => hlt hgt)
  have hsub : List.Sublist [e, sel] (pre ++ sel :: post) := by
    have h1 : List.Sublist [e] pre := List.singleton_sublist.mpr he
    have h2 : List.Sublist [sel] (sel :: post) :=
      List.singleton_sublist.mpr (List.mem_cons_self _ _)
    exact h1.append h2
  have hpair := List.pair_sublist_insertionSort hle hsub
  rw [h] at hpair
  have hndsort : (sel :: rest).Nodup := h ▸ (hperm.nodup_iff.mpr hnd)
  have hselpre : sel ∉ pre := by
    have h3 := List.nodup_middle.mp hnd
    have h4 := (List.nodup_cons.mp h3).1
    intro hc
    exact h4 (List.mem_append.mpr (Or.inl hc))
  have hne : e ≠ sel := fun hes => hselpre (hes ▸ he)
  cases hpair with
  | cons _ htail =>
    have : sel ∈ rest := htail.subset (by simp)
    exact (List.nodup_cons.mp hndsort).1 this
  | cons₂ _ _ => exact hne rfl

/-! ### Reachable tracker states

The scheduler mutates its tracker only through add_directory (via
discover_category), add_product_to_directory (via discover_product and
add_product_request), the two mark methods, and
get_next_priority_directory (via get_next_request).  A trace of these
operations therefore covers every tracker state a scheduler run can
produce.  The wall clock read by datetime.now() is modelled as a counter
advanced by every operation. -/

inductive TrackerOp where
  | addDirectory (path : String) (info_level : Option Nat) (info_parent : Option String)
  | addProduct (path url : String)
  | markCompleted (url : String)
  | markFailed (url : String)
  | nextPriority

/-- Apply one operation to a tracker state paired with the clock. -/
def TrackerOp.apply (st : DirectoryTracker × Nat) (op : TrackerOp) :
    DirectoryTracker × Nat :=
  match op with
  | .addDirectory p lv par => (st.1.add_directory p lv par st.2, st.2 + 1)
  | .addProduct p u => (st.1.add_product_to_directory p u st.2, st.2 + 1)
  | .markCompleted u => ((st.1.mark_product_completed u).2, st.2 + 1)
  | .markFailed u => ((st.1.mark_product_failed u).2, st.2 + 1)
  | .nextPriority => (st.1.get_next_priority_directory.2, st.2 + 1)

/-- Run a trace from the freshly constructed tracker. -/
def runOps (ops : List TrackerOp) : DirectoryTracker × Nat :=
  ops.foldl TrackerOp.apply (initTracker, 0)

/-- A tracker state is reachable when some trace produces it. -/
def ReachableT (t : DirectoryTracker) : Prop := ∃ ops, (runOps ops).1 = t

/-- The state invariant maintained by every tracker operation. -/
structure TrackerInv (t : DirectoryTracker) (clock : Nat) : Prop where
  active_not_completed : ∀ d ∈ t.active_directories, d ∉ t.completed_directories
  active_len : t.active_directories.length ≤ 1
  active_registered : ∀ d ∈ t.active_directories, d ∈ t.directories.map Prod.fst
  dirs_nodup : (t.directories.map Prod.fst).Nodup
  disc_pairwise :
    (t.directories.map (fun e => e.2.discovered_at)).Pairwise (· < ·)
  disc_lt_clock :
    ∀ x ∈ t.directories.map (fun e => e.2.discovered_at), x < clock
  completed_nonempty :
    ∀ d ∈ t.completed_directories, dpGet t.directory_products d ≠ []

theorem trackerInv_init : TrackerInv initTracker 0 := by
  constructor <;> simp [initTracker]

theorem trackerInv_clock_succ {t : DirectoryTracker} {c : Nat}
    (h : TrackerInv t c) : TrackerInv t (c + 1) :=
  { h with disc_lt_clock := fun x hx => Nat.lt_succ_of_lt (h.disc_lt_clock x hx) }

theorem trackerInv_add_directory {t : DirectoryTracker} {c : Nat}
    (h : TrackerInv t c) (p : String) (lv : Option Nat) (par : Option String) :
    TrackerInv (t.add_directory p lv par c) (c + 1) := by
  unfold DirectoryTracker.add_directory
  by_cases hp : (lookupA t.directories p).isSome
  · rw [if_pos hp]
    exact trackerInv_clock_succ h
  · rw [if_neg hp]
    have hnotin : p ∉ t.directories.map Prod.fst := by
      rw [← lookupA_isSome_iff]
      exact hp
    constructor
    · exact h.active_not_completed
    · exact h.active_len
    · intro d hd
      simp only [List.map_append]
      exact List.mem_append.mpr (Or.inl (h.active_registered d hd))
    · simp only [List.map_append, List.nodup_append]
      refine ⟨h.dirs_nodup, List.nodup_singleton _, ?_⟩
      intro a ha hb
      simp only [List.map_cons, List.map_nil, List.mem_singleton] at hb
      subst hb
      exact hnotin ha
    · simp only [List.map_append]
      rw [List.pairwise_append]
      refine ⟨h.disc_pairwise, List.pairwise_singleton _ _, ?_⟩
      intro a ha b hb
      simp only [List.map_cons, List.map_nil, List.mem_singleton] at hb
      subst hb
      exact h.disc_lt_clock a ha
    · intro x hx
      simp only [List.map_append, List.map_cons, List.map_nil,
        List.mem_append, List.mem_singleton] at hx
      rcases hx with h1 | h1
      · exact Nat.lt_succ_of_lt (h.disc_lt_clock x h1)
      · omega
    · exact h.completed_nonempty

/-- The invariant only constrains directories (through key and
discovered_at projections), the two directory sets and directory_products;
it survives any update that modifies a directory record without touching
discovered_at, grows directory_products pointwise, and rewrites the
remaining fields arbitrarily. -/
theorem trackerInv_update {t : DirectoryTracker} {c : Nat} (h : TrackerInv t c)
    (k : String) (f : DirInfo → DirInfo)
    (hf : ∀ i, (f i).discovered_at = i.discovered_at)
    (dp2 : List (String × List String))
    (hdp : ∀ d, dpGet t.directory_products d ≠ [] → dpGet dp2 d ≠ [])
    (dps : List (String × String)) (cp fp : List String) (st : TrackerStats) :
    TrackerInv
      { t with directories := modifyA t.directories k f
               directory_products := dp2, discovered_products := dps
               completed_products := cp, failed_products := fp
               stats := st } c := by
  constructor
  · exact h.active_not_completed
  · exact h.active_len
  · intro d hd
    simp only [map_fst_modifyA]
    exact h.active_registered d hd
  · simp only [map_fst_modifyA]
    exact h.dirs_nodup
  · simp only [map_snd_proj_modifyA _ _ _ _ hf]
    exact h.disc_pairwise
  · simp only [map_snd_proj_modifyA _ _ _ _ hf]
    exact h.disc_lt_clock
  · intro d hd
    exact hdp d (h.completed_nonempty d hd)

theorem dpGet_dpAdd_ne_nil {l : List (String × List String)} {d : String}
    (k v : String) (h : dpGet l d ≠ []) : dpGet (dpAdd l k v) d ≠ [] := by
  by_cases hd : d = k
  · subst hd
    rw [dpGet_dpAdd_self]
    by_cases hv : v ∈ dpGet l d
    · rw [if_pos hv]
      exact h
    · rw [if_neg hv]
      simp
  · rw [dpGet_dpAdd_ne _ _ hd]
    exact h

theorem trackerInv_add_product {t : DirectoryTracker} {c : Nat}
    (h : TrackerInv t c) (p u : String) :
    TrackerInv (t.add_product_to_directory p u c) (c + 1) := by
  unfold DirectoryTracker.add_product_to_directory
  by_cases hp : (lookupA t.directories p).isSome
  · rw [if_pos hp]
    exact trackerInv_update (trackerInv_clock_succ h) p
      (fun i => { i with products_discovered := i.products_discovered + 1 })
      (fun _ => rfl) (dpAdd t.directory_products p u)
      (fun d hd => dpGet_dpAdd_ne_nil p u hd)
      (dictSet t.discovered_products u p) t.completed_products
      t.failed_products
      { t.stats with products_discovered := t.stats.products_discovered + 1 }
  · rw [if_neg hp]
    exact trackerInv_update (trackerInv_add_directory h p (some 1) none) p
      (fun i => { i with products_discovered := i.products_discovered + 1 })
      (fun _ => rfl)
      (dpAdd (t.add_directory p (some 1) none c).directory_products p u)
      (fun d hd => dpGet_dpAdd_ne_nil p u hd)
      (dictSet (t.add_directory p (some 1) none c).discovered_products u p)
      (t.add_directory p (some 1) none c).completed_products
      (t.add_directory p (some 1) none c).failed_products
      { (t.add_directory p (some 1) none c).stats with
          products_discovered :=
            (t.add_directory p (some 1) none c).stats.products_discovered + 1 }

theorem trackerInv_check {t : DirectoryTracker} {c : Nat}
    (h : TrackerInv t c) (p : String) :
    TrackerInv (t.check_directory_completion p) c := by
  unfold DirectoryTracker.check_directory_completion
  by_cases h1 : p ∈ t.completed_directories
  · rw [if_pos h1]
    exact h
  · rw [if_neg h1]
    cases h2 : lookupA t.directories p with
    | none => exact h
    | some info =>
      dsimp only
      by_cases h3 :
          (dpGet t.directory_products p).length ≤
              info.products_completed + t.failedCountFor p ∧
            0 < (dpGet t.directory_products p).length
      · rw [if_pos h3]
        constructor
        · intro d hd
          rcases mem_setDiscard.mp hd with ⟨hda, hdp⟩
          intro hdc
          rcases mem_setAdd.mp hdc with hdc | hdc
          · exact h.active_not_completed d hda hdc
          · exact hdp hdc
        · exact Nat.le_trans (List.length_filter_le _ _) h.active_len
        · intro d hd
          show d ∈ (modifyA t.directories p
            (fun i => { i with status := DirStatus.completed })).map Prod.fst
          rw [map_fst_modifyA]
          exact h.active_registered d (mem_setDiscard.mp hd).1
        · show ((modifyA t.directories p
            (fun i => { i with status := DirStatus.completed })).map Prod.fst).Nodup
          rw [map_fst_modifyA]
          exact h.dirs_nodup
        · show ((modifyA t.directories p
            (fun i => { i with status := DirStatus.completed })).map
              (fun e => e.2.discovered_at)).Pairwise (· < ·)
          rw [map_disc_modifyA t.directories p
            (fun i => { i with status := DirStatus.completed }) (fun _ => rfl)]
          exact h.disc_pairwise
        · show ∀ x ∈ (modifyA t.directories p
            (fun i => { i with status := DirStatus.completed })).map
              (fun e => e.2.discovered_at), x < c
          rw [map_disc_modifyA t.directories p
            (fun i => { i with status := DirStatus.completed }) (fun _ => rfl)]
          exact h.disc_lt_clock
        · intro d hd
          rcases mem_setAdd.mp hd with hd | hd
          · exact h.completed_nonempty d hd
          · subst hd
            intro hnil
            rw [hnil] at h3
            simp at h3
      · rw [if_neg h3]
        exact h

theorem trackerInv_mark_completed {t : DirectoryTracker} {c : Nat}
    (h : TrackerInv t c) (u : String) :
    TrackerInv (t.mark_product_completed u).2 (c + 1) := by
  unfold DirectoryTracker.mark_product_completed
  cases hu : lookupA t.discovered_products u with
  | none => exact trackerInv_clock_succ h
  | some dir =>
    exact trackerInv_check
      (trackerInv_update (trackerInv_clock_succ h) dir
        (fun i => { i with products_completed := i.products_completed + 1 })
        (fun _ => rfl) t.directory_products (fun d hd => hd)
        t.discovered_products (setAdd t.completed_products u)
        t.failed_products
        { t.stats with
            products_completed := t.stats.products_completed + 1 }) dir

theorem trackerInv_mark_failed {t : DirectoryTracker} {c : Nat}
    (h : TrackerInv t c) (u : String) :
    TrackerInv (t.mark_product_failed u).2 (c + 1) := by
  unfold DirectoryTracker.mark_product_failed
  cases hu : lookupA t.discovered_products u with
  | none => exact trackerInv_clock_succ h
  | some dir =>
    refine trackerInv_check ?_ dir
    have h1 := trackerInv_clock_succ h
    exact
      { active_not_completed := h1.active_not_completed
        active_len := h1.active_len
        active_registered := h1.active_registered
        dirs_nodup := h1.dirs_nodup
        disc_pairwise := h1.disc_pairwise
        disc_lt_clock := h1.disc_lt_clock
        completed_nonempty := h1.completed_nonempty }

theorem trackerInv_gnpd {t : DirectoryTracker} {c : Nat}
    (h : TrackerInv t c) :
    TrackerInv t.get_next_priority_directory.2 (c + 1) := by
  unfold DirectoryTracker.get_next_priority_directory
  cases hf : t.active_directories.find?
      (fun p => !(t.is_directory_completed p)) with
  | some p => simp only [hf]; exact trackerInv_clock_succ h
  | none =>
    simp only [hf]
    have hactive : t.active_directories = [] := by
      rw [List.eq_nil_iff_forall_not_mem]
      intro d hd
      have h4 := List.find?_eq_none.mp hf d hd
      have hdc : d ∈ t.completed_directories := by
        simpa [DirectoryTracker.is_directory_completed] using h4
      exact h.active_not_completed d hd hdc
    cases hs : (t.directories.filter
        (fun e => decide (e.1 ∉ t.completed_directories))).insertionSort
        DirectoryTracker.levelLE with
    | nil => simp only [hs]; exact trackerInv_clock_succ h
    | cons sel rest =>
      simp only [hs]
      have hsel : sel ∈ t.directories.filter
          (fun e => decide (e.1 ∉ t.completed_directories)) :=
        (List.mem_insertionSort _).mp (hs ▸ List.mem_cons_self sel rest)
      have hselnc : sel.1 ∉ t.completed_directories := by
        have := List.of_mem_filter hsel
        simpa using this
      have hselreg : sel.1 ∈ t.directories.map Prod.fst :=
        List.mem_map_of_mem _ (List.mem_of_mem_filter hsel)
      constructor
      · intro d hd
        have hd2 : d ∈ setAdd t.active_directories sel.1 := hd
        rw [hactive] at hd2
        rcases mem_setAdd.mp hd2 with hd2 | hd2
        · simp at hd2
        · subst hd2
          exact hselnc
      · show (setAdd t.active_directories sel.1).length ≤ 1
        rw [hactive]
        simp [setAdd]
      · intro d hd
        have hd2 : d ∈ setAdd t.active_directories sel.1 := hd
        rw [hactive] at hd2
        show d ∈ (modifyA t.directories sel.1
          (fun i => { i with status := DirStatus.active })).map Prod.fst
        rw [map_fst_modifyA]
        rcases mem_setAdd.mp hd2 with hd2 | hd2
        · simp at hd2
        · subst hd2
          exact hselreg
      · show ((modifyA t.directories sel.1
          (fun i => { i with status := DirStatus.active })).map Prod.fst).Nodup
        rw [map_fst_modifyA]
        exact h.dirs_nodup
      · show ((modifyA t.directories sel.1
          (fun i => { i with status := DirStatus.active })).map
            (fun e => e.2.discovered_at)).Pairwise (· < ·)
        rw [map_disc_modifyA t.directories sel.1
          (fun i => { i with status := DirStatus.active }) (fun _ => rfl)]
        exact h.disc_pairwise
      · show ∀ x ∈ (modifyA t.directories sel.1
          (fun i => { i with status := DirStatus.active })).map
            (fun e => e.2.discovered_at), x < c + 1
        rw [map_disc_modifyA t.directories sel.1
          (fun i => { i with status := DirStatus.active }) (fun _ => rfl)]
        intro x hx
        exact Nat.lt_succ_of_lt (h.disc_lt_clock x hx)
      · exact h.completed_nonempty

theorem trackerInv_apply {st : DirectoryTracker × Nat}
    (h : TrackerInv st.1 st.2) (op : TrackerOp) :
    TrackerInv (TrackerOp.apply st op).1 (TrackerOp.apply st op).2 := by
  cases op with
  | addDirectory p lv par => exact trackerInv_add_directory h p lv par
  | addProduct p u => exact trackerInv_add_product h p u
  | markCompleted u => exact trackerInv_mark_completed h u
  | markFailed u => exact trackerInv_mark_failed h u
  | nextPriority => exact trackerInv_gnpd h

theorem trackerInv_foldl (ops : List TrackerOp) :
    ∀ st : DirectoryTracker × Nat, TrackerInv st.1 st.2 →
      TrackerInv (ops.foldl TrackerOp.apply st).1
        (ops.foldl TrackerOp.apply st).2 := by
  induction ops with
  | nil => exact fun st h => h
  | cons op ops ih =>
    intro st h
    exact ih _ (trackerInv_apply h op)

theorem trackerInv_runOps (ops : List TrackerOp) :
    TrackerInv (runOps ops).1 (runOps ops).2 :=
  trackerInv_foldl ops _ trackerInv_init

/-- Every reachable tracker state satisfies the invariant. -/
theorem reachableT_inv {t : DirectoryTracker} (h : ReachableT t) :
    ∃ c : Nat, TrackerInv t c := by
  rcases h with ⟨ops, hops⟩
  exact ⟨(runOps ops).2, hops ▸ trackerInv_runOps ops⟩

/-! ### Effect lemmas for the completion check and the mark operations -/

theorem lookupA_map_proj_modifyA {α β : Type} (l : List (String × α))
    (k : String) (f : α → α) (g : α → β) (hg : ∀ i, g (f i) = g i)
    (d : String) :
    (lookupA (modifyA l k f) d).map g = (lookupA l d).map g := by
  by_cases hd : d = k
  · subst hd
    rw [lookupA_modifyA_self]
    cases lookupA l d <;> simp [hg]
  · rw [lookupA_modifyA_ne _ _ hd]

theorem check_effects (t : DirectoryTracker) (p : String) :
    (t.check_directory_completion p).discovered_products =
        t.discovered_products ∧
      (t.check_directory_completion p).completed_products =
        t.completed_products ∧
      (t.check_directory_completion p).directory_products =
        t.directory_products ∧
      (t.check_directory_completion p).failed_products = t.failed_products ∧
      ∀ d, (lookupA (t.check_directory_completion p).directories d).map
          (fun i => i.products_completed) =
        (lookupA t.directories d).map (fun i => i.products_completed) := by
  unfold DirectoryTracker.check_directory_completion
  by_cases h1 : p ∈ t.completed_directories
  · rw [if_pos h1]
    exact ⟨rfl, rfl, rfl, rfl, fun d => rfl⟩
  · rw [if_neg h1]
    cases h2 : lookupA t.directories p with
    | none => exact ⟨rfl, rfl, rfl, rfl, fun d => rfl⟩
    | some info =>
      dsimp only
      by_cases h3 :
          (dpGet t.directory_products p).length ≤
              info.products_completed + t.failedCountFor p ∧
            0 < (dpGet t.directory_products p).length
      · rw [if_pos h3]
        refine ⟨rfl, rfl, rfl, rfl, fun d => ?_⟩
        exact lookupA_map_proj_modifyA t.directories p
          (fun i => { i with status := DirStatus.completed })
          (fun i => i.products_completed) (fun _ => rfl) d
      · rw [if_neg h3]
        exact ⟨rfl, rfl, rfl, rfl, fun d => rfl⟩

theorem failedCountFor_congr {t1 t2 : DirectoryTracker} (p : String)
    (h1 : t1.failed_products = t2.failed_products)
    (h2 : t1.discovered_products = t2.discovered_products) :
    t1.failedCountFor p = t2.failedCountFor p := by
  unfold DirectoryTracker.failedCountFor
  rw [h1, h2]

/-- The state changes of mark_product_completed visible to progress
reporting: directory_products, discovered_products and failed_products are
untouched, the completed_products set gains at most the url, and the
products_completed counter of each directory either stays or, when the url
is known and owned by that directory, increases by one. -/
theorem mark_completed_effects (t : DirectoryTracker) (u : String) :
    (t.mark_product_completed u).2.directory_products =
        t.directory_products ∧
      (t.mark_product_completed u).2.discovered_products =
        t.discovered_products ∧
      (t.mark_product_completed u).2.failed_products = t.failed_products ∧
      ∀ p, ∃ add : Nat,
        (lookupA (t.mark_product_completed u).2.directories p).map
            (fun i => i.products_completed) =
          (lookupA t.directories p).map
            (fun i => i.products_completed + add) := by
  unfold DirectoryTracker.mark_product_completed
  cases hu : lookupA t.discovered_products u with
  | none =>
    refine ⟨rfl, rfl, rfl, fun p => ⟨0, ?_⟩⟩
    cases lookupA t.directories p <;> simp
  | some dir =>
    obtain ⟨he1, he2, he3, he4, he5⟩ := check_effects
      { t with
        completed_products := setAdd t.completed_products u
        directories := modifyA t.directories dir
          (fun i => { i with products_completed := i.products_completed + 1 })
        stats := { t.stats with
          products_completed := t.stats.products_completed + 1 } } dir
    refine ⟨he3, he1, he4, fun p => ?_⟩
    rw [he5 p]
    by_cases hp : p = dir
    · subst hp
      refine ⟨1, ?_⟩
      show (lookupA (modifyA t.directories p
        (fun i => { i with products_completed := i.products_completed + 1 })) p).map
          (fun i => i.products_completed) = _
      rw [lookupA_modifyA_self]
      cases lookupA t.directories p <;> simp
    · refine ⟨0, ?_⟩
      show (lookupA (modifyA t.directories dir
        (fun i => { i with products_completed := i.products_completed + 1 })) p).map
          (fun i => i.products_completed) = _
      rw [lookupA_modifyA_ne _ _ hp]
      cases lookupA t.directories p <;> simp

/-- The corresponding effect lemma for mark_product_failed: the counter map
is untouched, directory_products and discovered_products are untouched,
and failed_products gains at most the url. -/
theorem mark_failed_effects (t : DirectoryTracker) (u : String) :
    (t.mark_product_failed u).2.directory_products = t.directory_products ∧
      (t.mark_product_failed u).2.discovered_products =
        t.discovered_products ∧
      ((t.mark_product_failed u).2.failed_products = t.failed_products ∨
        (t.mark_product_failed u).2.failed_products =
          t.failed_products ++ [u]) ∧
      ∀ p, (lookupA (t.mark_product_failed u).2.directories p).map
          (fun i => i.products_completed) =
        (lookupA t.directories p).map (fun i => i.products_completed) := by
  unfold DirectoryTracker.mark_product_failed
  cases hu : lookupA t.discovered_products u with
  | none => exact ⟨rfl, rfl, Or.inl rfl, fun p => rfl⟩
  | some dir =>
    obtain ⟨he1, he2, he3, he4, he5⟩ := check_effects
      { t with
        failed_products := setAdd t.failed_products u
        stats := { t.stats with
          products_failed := t.stats.products_failed + 1 } } dir
    refine ⟨he3, he1, ?_, fun p => he5 p⟩
    rw [he4]
    show setAdd t.failed_products u = t.failed_products ∨
      setAdd t.failed_products u = t.failed_products ++ [u]
    unfold setAdd
    by_cases h : u ∈ t.failed_products
    · exact Or.inl (if_pos h)
    · exact Or.inr (if_neg h)

/-- One mark_product_completed call on a url whose owner is registered in
discovered_products: returns True, leaves discovered_products alone, adds
the url to the completed set, and increments the owning directory counter. -/
theorem mark_completed_known (t : DirectoryTracker) (u d : String)
    (hu : lookupA t.discovered_products u = some d) :
    (t.mark_product_completed u).1 = true ∧
      (t.mark_product_completed u).2.discovered_products =
        t.discovered_products ∧
      (t.mark_product_completed u).2.completed_products =
        setAdd t.completed_products u ∧
      (lookupA (t.mark_product_completed u).2.directories d).map
          (fun i => i.products_completed) =
        (lookupA t.directories d).map
          (fun i => i.products_completed + 1) := by
  unfold DirectoryTracker.mark_product_completed
  rw [hu]
  obtain ⟨he1, he2, he3, he4, he5⟩ := check_effects
    { t with
      completed_products := setAdd t.completed_products u
      directories := modifyA t.directories d
        (fun i => { i with products_completed := i.products_completed + 1 })
      stats := { t.stats with
        products_completed := t.stats.products_completed + 1 } } d
  refine ⟨rfl, he1, he2, ?_⟩
  rw [he5 d]
  show (lookupA (modifyA t.directories d
    (fun i => { i with products_completed := i.products_completed + 1 })) d).map
      (fun i => i.products_completed) = _
  rw [lookupA_modifyA_self]
  cases lookupA t.directories d <;> rfl

/-- k successive mark_product_completed calls for the same url. -/
def markCompletedN (u : String) : Nat → DirectoryTracker → DirectoryTracker
  | 0, t => t
  | k + 1, t => markCompletedN u k (t.mark_product_completed u).2

theorem option_map_shift {o o1 : Option DirInfo} {a : Nat}
    (h : o1.map (fun i => i.products_completed) =
      o.map (fun i => i.products_completed + a)) (b : Nat) :
    o1.map (fun i => i.products_completed + b) =
      o.map (fun i => i.products_completed + (a + b)) := by
  cases o with
  | none =>
    cases o1 with
    | none => rfl
    | some i1 => simp at h
  | some i =>
    cases o1 with
    | none => simp at h
    | some i1 =>
      have h2 : i1.products_completed = i.products_completed + a := by
        simpa using h
      have h3 : i1.products_completed + b = i.products_completed + (a + b) := by
        omega
      simpa using h3

theorem setAdd_setAdd_self (s : List String) (u : String) :
    setAdd (setAdd s u) u = setAdd s u :=
  setAdd_of_mem (mem_setAdd.mpr (Or.inr rfl))

theorem markN_effects (u d : String) :
    ∀ (k : Nat) (t : DirectoryTracker),
      lookupA t.discovered_products u = some d →
      (markCompletedN u k t).discovered_products = t.discovered_products ∧
        (lookupA (markCompletedN u k t).directories d).map
            (fun i => i.products_completed) =
          (lookupA t.directories d).map
            (fun i => i.products_completed + k) ∧
        ((markCompletedN u k t).completed_products = t.completed_products ∨
          (markCompletedN u k t).completed_products =
            setAdd t.completed_products u) := by
  intro k
  induction k with
  | zero =>
    intro t hu
    refine ⟨rfl, ?_, Or.inl rfl⟩
    show (lookupA t.directories d).map (fun i => i.products_completed) =
      (lookupA t.directories d).map (fun i => i.products_completed + 0)
    cases lookupA t.directories d <;> rfl
  | succ k ih =>
    intro t hu
    obtain ⟨hs1, hs2, hs3, hs4⟩ := mark_completed_known t u d hu
    have hu2 : lookupA (t.mark_product_completed u).2.discovered_products u =
        some d := by rw [hs2]; exact hu
    obtain ⟨ih1, ih2, ih3⟩ := ih (t.mark_product_completed u).2 hu2
    refine ⟨?_, ?_, ?_⟩
    · show (markCompletedN u k (t.mark_product_completed u).2).discovered_products = _
      rw [ih1, hs2]
    · show (lookupA (markCompletedN u k
        (t.mark_product_completed u).2).directories d).map
          (fun i => i.products_completed) = _
      rw [ih2, option_map_shift hs4 k]
      have : 1 + k = k + 1 := Nat.add_comm 1 k
      rw [this]
    · show (markCompletedN u k (t.mark_product_completed u).2).completed_products =
        t.completed_products ∨
          (markCompletedN u k (t.mark_product_completed u).2).completed_products =
            setAdd t.completed_products u
      rcases ih3 with h | h
      · rw [h, hs3]
        exact Or.inr rfl
      · rw [h, hs3, setAdd_setAdd_self]
        exact Or.inr rfl

/-- C10: duplicate terminal reports for a known url are not idempotent.
Every call to mark_product_completed for a discovered url, including
repeated calls for a url already marked completed, returns True and
increments the owning directory products_completed counter again, so k
duplicate completion reports raise that counter by k while the set of
completed products grows by at most one element. -/
theorem c10_duplicate_completions (t : DirectoryTracker) (u d : String)
    (hu : lookupA t.discovered_products u = some d) (k : Nat) :
    ((markCompletedN u k t).mark_product_completed u).1 = true ∧
      (lookupA (markCompletedN u k t).directories d).map
          (fun i => i.products_completed) =
        (lookupA t.directories d).map (fun i => i.products_completed + k) ∧
      (markCompletedN u k t).completed_products.length ≤
        t.completed_products.length + 1 := by
  obtain ⟨h1, h2, h3⟩ := markN_effects u d k t hu
  refine ⟨?_, h2, ?_⟩
  · have hu2 : lookupA (markCompletedN u k t).discovered_products u = some d := by
      rw [h1]; exact hu
    exact (mark_completed_known _ u d hu2).1
  · rcases h3 with h | h
    · rw [h]
      exact Nat.le_succ _
    · rw [h]
      exact length_setAdd_le _ _

/-- Witness for C10 at a concrete reachable tracker with one directory and
one discovered product, reported completed three extra times. -/
theorem c10_duplicate_completions_witness :
    ((markCompletedN "u" 3 (runOps [TrackerOp.addDirectory "/a" (some 1) none,
          TrackerOp.addProduct "/a" "u"]).1).mark_product_completed "u").1 = true ∧
      (lookupA (markCompletedN "u" 3 (runOps [TrackerOp.addDirectory "/a" (some 1) none,
          TrackerOp.addProduct "/a" "u"]).1).directories "/a").map
          (fun i => i.products_completed) =
        (lookupA (runOps [TrackerOp.addDirectory "/a" (some 1) none,
          TrackerOp.addProduct "/a" "u"]).1.directories "/a").map
          (fun i => i.products_completed + 3) ∧
      (markCompletedN "u" 3 (runOps [TrackerOp.addDirectory "/a" (some 1) none,
          TrackerOp.addProduct "/a" "u"]).1).completed_products.length ≤
        (runOps [TrackerOp.addDirectory "/a" (some 1) none,
          TrackerOp.addProduct "/a" "u"]).1.completed_products.length + 1 :=
  c10_duplicate_completions _ "u" "/a" (by decide) 3

/-- C7: terminal reports for a fingerprint that was never discovered are
total no-ops: both mark methods return False and leave the whole tracker
state unchanged. -/
theorem c7_unknown_report_noop (t : DirectoryTracker) (u : String)
    (h : lookupA t.discovered_products u = none) :
    t.mark_product_completed u = (false, t) ∧
      t.mark_product_failed u = (false, t) := by
  unfold DirectoryTracker.mark_product_completed
    DirectoryTracker.mark_product_failed
  rw [h]
  exact ⟨rfl, rfl⟩

/-- Witness for C7 on the fresh tracker and an unknown url. -/
theorem c7_unknown_report_noop_witness :
    initTracker.mark_product_completed "nope" = (false, initTracker) ∧
      initTracker.mark_product_failed "nope" = (false, initTracker) :=
  c7_unknown_report_noop initTracker "nope" rfl

/-- The value callers of add_product_to_directory and discover_product
receive: both Python methods end without a return statement, so the caller
gets None.  A boolean return would be some b. -/
def add_product_return (_t : DirectoryTracker) (_path _url : String) :
    Option Bool := none

/-- C9 counterexample: the claim says RegisterProduct returns a boolean
stating whether the fingerprint was newly seen for the directory; on the
fresh tracker the fingerprint u1 is newly seen for /a, yet the call
returns None, which is not a boolean. -/
theorem c9_register_product_counterexample :
    add_product_return initTracker "/a" "u1" = none ∧
      "u1" ∉ dpGet initTracker.directory_products "/a" ∧
      ∀ b : Bool, add_product_return initTracker "/a" "u1" ≠ some b := by
  decide

/-- C9 amended: RegisterProduct never fails; an unknown path is
auto-registered as a directory at level 1 with status discovered, the url
is recorded in the directory product set and in discovered_products, but
the method returns None rather than the newly-seen boolean. -/
theorem mem_dpGet_dpAdd_self (l : List (String × List String)) (k v : String) :
    v ∈ dpGet (dpAdd l k v) k := by
  rw [dpGet_dpAdd_self]
  by_cases hm : v ∈ dpGet l k
  · rw [if_pos hm]
    exact hm
  · rw [if_neg hm]
    exact List.mem_append.mpr (Or.inr (List.mem_singleton.mpr rfl))

theorem c9_register_product_amended (t : DirectoryTracker) (p u : String)
    (now : Nat) (h : lookupA t.directories p = none) :
    (∃ j, lookupA (t.add_product_to_directory p u now).directories p =
        some j ∧ j.level = 1 ∧ j.status = DirStatus.discovered) ∧
      lookupA (t.add_product_to_directory p u now).discovered_products u =
        some p ∧
      u ∈ dpGet (t.add_product_to_directory p u now).directory_products p ∧
      add_product_return t p u = none := by
  have hns : ¬ (lookupA t.directories p).isSome := by
    rw [h]
    simp
  unfold DirectoryTracker.add_product_to_directory
  rw [if_neg hns]
  unfold DirectoryTracker.add_directory
  rw [if_neg hns]
  refine ⟨?_, lookupA_dictSet_self _ u p, mem_dpGet_dpAdd_self _ p u, rfl⟩
  rw [lookupA_modifyA_self, lookupA_append, h]
  rw [lookupA_cons, if_pos rfl]
  exact ⟨_, rfl, rfl, rfl⟩

/-- Witness for the amended C9 on the fresh tracker. -/
theorem c9_register_product_amended_witness :
    (∃ j, lookupA (initTracker.add_product_to_directory "/a" "u1" 0).directories
        "/a" = some j ∧ j.level = 1 ∧ j.status = DirStatus.discovered) ∧
      lookupA (initTracker.add_product_to_directory "/a" "u1" 0).discovered_products
        "u1" = some "/a" ∧
      "u1" ∈ dpGet (initTracker.add_product_to_directory "/a" "u1" 0).directory_products
        "/a" ∧
      add_product_return initTracker "/a" "u1" = none :=
  c9_register_product_amended initTracker "/a" "u1" 0 rfl

/-- get_next_priority_directory never returns a completed directory: the
active scan skips completed entries and the promotion candidates are
filtered to non-completed entries. -/
theorem gnpd_not_completed (t : DirectoryTracker) (d : String)
    (hc : d ∈ t.completed_directories) :
    t.get_next_priority_directory.1 ≠ some d := by
  unfold DirectoryTracker.get_next_priority_directory
  cases hf : t.active_directories.find?
      (fun p => !(t.is_directory_completed p)) with
  | some p =>
    have hp := List.find?_some hf
    have hpnc : p ∉ t.completed_directories := by
      simpa [DirectoryTracker.is_directory_completed] using hp
    simp only
    intro he
    exact hpnc (Option.some_inj.mp he ▸ hc)
  | none =>
    simp only
    cases hs : (t.directories.filter
        (fun e => decide (e.1 ∉ t.completed_directories))).insertionSort
        DirectoryTracker.levelLE with
    | nil => simp
    | cons sel rest =>
      have hsel : sel ∈ t.directories.filter
          (fun e => decide (e.1 ∉ t.completed_directories)) :=
        (List.mem_insertionSort _).mp (hs ▸ List.mem_cons_self sel rest)
      have hselnc : sel.1 ∉ t.completed_directories := by
        have := List.of_mem_filter hsel
        simpa using this
      simp only
      intro he
      exact hselnc (Option.some_inj.mp he ▸ hc)

/-- C8: no backward status transition.  Once a directory is in the
completed set, a later add_product_to_directory for that path only updates
product bookkeeping: the path stays in the completed set and its stored
status is unchanged; add_directory for the path is a complete no-op;
get_next_priority_directory never returns it, and after
_update_priority_directory of any scheduler built on this tracker the
current priority directory is never that path. -/
theorem c8_no_backward_transition (t : DirectoryTracker) (d : String)
    (i : DirInfo) (hc : d ∈ t.completed_directories)
    (hreg : lookupA t.directories d = some i) :
    (∀ u now,
      d ∈ (t.add_product_to_directory d u now).completed_directories ∧
        (lookupA (t.add_product_to_directory d u now).directories d).map
          (fun j => j.status) = some i.status) ∧
      (∀ lv par now, t.add_directory d lv par now = t) ∧
      t.get_next_priority_directory.1 ≠ some d ∧
      (∀ q cur en,
        (DirectoryPriorityScheduler.update_priority_directory
          ⟨t, q, cur, en⟩).current_priority_directory ≠ some d) := by
  have hs : (lookupA t.directories d).isSome := by
    rw [hreg]
    rfl
  refine ⟨?_, ?_, gnpd_not_completed t d hc, ?_⟩
  · intro u now
    unfold DirectoryTracker.add_product_to_directory
    rw [if_pos hs]
    refine ⟨hc, ?_⟩
    show (lookupA (modifyA t.directories d
      (fun j => { j with products_discovered := j.products_discovered + 1 })) d).map
        (fun j => j.status) = some i.status
    rw [lookupA_map_proj_modifyA t.directories d
      (fun j => { j with products_discovered := j.products_discovered + 1 })
      (fun j => j.status) (fun _ => rfl) d, hreg]
    rfl
  · intro lv par now
    unfold DirectoryTracker.add_directory
    rw [if_pos hs]
  · intro q cur en
    unfold DirectoryPriorityScheduler.update_priority_directory
    cases cur with
    | none =>
      dsimp only
      exact gnpd_not_completed t d hc
    | some c =>
      dsimp only
      by_cases hcc : t.is_directory_completed c
      · rw [if_pos hcc]
        dsimp only
        exact gnpd_not_completed t d hc
      · rw [if_neg hcc]
        dsimp only
        intro he
        have : c ∈ t.completed_directories := Option.some_inj.mp he ▸ hc
        exact hcc (by simpa [DirectoryTracker.is_directory_completed] using this)

/-- Witness for C8 at a reachable tracker in which /a is completed. -/
theorem c8_no_backward_transition_witness :
    ("/a" ∈ ((runOps [TrackerOp.addDirectory "/a" (some 1) none,
          TrackerOp.addProduct "/a" "u",
          TrackerOp.markCompleted "u"]).1.add_product_to_directory
        "/a" "v" 9).completed_directories) ∧
      (runOps [TrackerOp.addDirectory "/a" (some 1) none,
          TrackerOp.addProduct "/a" "u",
          TrackerOp.markCompleted "u"]).1.get_next_priority_directory.1 ≠
        some "/a" := by
  have h := c8_no_backward_transition
    (runOps [TrackerOp.addDirectory "/a" (some 1) none,
      TrackerOp.addProduct "/a" "u", TrackerOp.markCompleted "u"]).1
    "/a"
    { level := 1, discovered_at := 0, parent := none
      products_discovered := 1, products_completed := 1
      status := DirStatus.completed }
    (by decide) (by decide)
  exact ⟨(h.1 "v" 9).1, h.2.2.1⟩

/-! ### The queue admission interface -/

/-- The three admission entry points of PriorityRequestQueue, as one
dispatch: the Enqueue(kind) interface of the spec. -/
inductive Lane where
  | category
  | product (directory_path : String)
  | other
deriving DecidableEq, Repr

namespace PriorityRequestQueue

/-- Dispatch to add_category_request / add_product_request /
add_other_request. -/
def enqueue (q : PriorityRequestQueue) (l : Lane) (url : String) :
    Bool × PriorityRequestQueue :=
  match l with
  | .category => q.add_category_request url
  | .product d => q.add_product_request url d
  | .other => q.add_other_request url

/-- The contents of one lane. -/
def laneList (q : PriorityRequestQueue) : Lane → List String
  | .category => q.category_requests
  | .product d => dpGet q.product_requests d
  | .other => q.other_requests

end PriorityRequestQueue

/-- Dequeuing never removes fingerprints from the seen set. -/
theorem seen_get_next (q : PriorityRequestQueue) (pd : Option String) :
    (q.get_next_request pd).2.seen_requests = q.seen_requests := by
  have hfb : (q.get_next_fallback pd).2.seen_requests = q.seen_requests := by
    unfold PriorityRequestQueue.get_next_fallback
    cases hf : q.product_requests.find?
        (fun e => decide (e.2 ≠ [] ∧ some e.1 ≠ pd)) with
    | some e =>
      obtain ⟨k, dq⟩ := e
      cases dq with
      | nil => rfl
      | cons a b => rfl
    | none =>
      cases q.other_requests with
      | nil => rfl
      | cons a b => rfl
  have hcat : (q.get_next_from_category pd).2.seen_requests =
      q.seen_requests := by
    unfold PriorityRequestQueue.get_next_from_category
    cases q.category_requests with
    | nil => exact hfb
    | cons a b => rfl
  unfold PriorityRequestQueue.get_next_request
  cases pd with
  | none => exact hcat
  | some p =>
    dsimp only
    by_cases hp : p ≠ ""
    · rw [if_pos hp]
      cases hl : lookupA q.product_requests p with
      | none => exact hcat
      | some s =>
        cases s with
        | nil => exact hcat
        | cons a b => rfl
    · rw [if_neg hp]
      exact hcat

/-- An already-seen fingerprint is rejected by every admission method with
no state change. -/
theorem enqueue_seen (q : PriorityRequestQueue) (l : Lane) (url : String)
    (h : request_fingerprint url ∈ q.seen_requests) :
    q.enqueue l url = (false, q) := by
  cases l with
  | category =>
    unfold PriorityRequestQueue.enqueue PriorityRequestQueue.add_category_request
    dsimp only
    rw [if_pos h]
  | product d =>
    unfold PriorityRequestQueue.enqueue PriorityRequestQueue.add_product_request
    dsimp only
    rw [if_pos h]
  | other =>
    unfold PriorityRequestQueue.enqueue PriorityRequestQueue.add_other_request
    dsimp only
    rw [if_pos h]

/-- C4: admission dedup and idempotence.  A fingerprint not yet seen is
admitted: the call returns true, the fingerprint is appended to the seen
set, the url is appended to the target lane, and the queue total grows by
one.  Any later enqueue of the same fingerprint, through any lane of any
queue state whose seen set contains it, returns false and leaves the state
unchanged, and dequeuing never unregisters a fingerprint. -/
theorem c4_enqueue_dedup (q : PriorityRequestQueue) (url : String) (l : Lane)
    (hn : (q.product_requests.map Prod.fst).Nodup)
    (hf : request_fingerprint url ∉ q.seen_requests) :
    (q.enqueue l url).1 = true ∧
      (q.enqueue l url).2.seen_requests =
        q.seen_requests ++ [request_fingerprint url] ∧
      (q.enqueue l url).2.laneList l = q.laneList l ++ [url] ∧
      (q.enqueue l url).2.total_requests = q.total_requests + 1 ∧
      (∀ l2, (q.enqueue l url).2.enqueue l2 url =
        (false, (q.enqueue l url).2)) ∧
      (∀ (q2 : PriorityRequestQueue) (l2 : Lane),
        request_fingerprint url ∈ q2.seen_requests →
          q2.enqueue l2 url = (false, q2)) ∧
      (∀ (q2 : PriorityRequestQueue) (pd : Option String),
        (q2.get_next_request pd).2.seen_requests = q2.seen_requests) := by
  have hmem : request_fingerprint url ∈
      q.seen_requests ++ [request_fingerprint url] :=
    List.mem_append.mpr (Or.inr (List.mem_singleton.mpr rfl))
  cases l with
  | category =>
    unfold PriorityRequestQueue.enqueue
      PriorityRequestQueue.add_category_request
    dsimp only
    rw [if_neg hf]
    refine ⟨rfl, rfl, rfl, ?_, ?_, fun q2 l2 h => enqueue_seen q2 l2 url h,
      fun q2 pd => seen_get_next q2 pd⟩
    · unfold PriorityRequestQueue.total_requests
      dsimp only
      simp only [List.length_append, List.length_singleton]
      omega
    · intro l2
      exact enqueue_seen _ l2 url hmem
  | product d =>
    unfold PriorityRequestQueue.enqueue
      PriorityRequestQueue.add_product_request
    dsimp only
    rw [if_neg hf]
    refine ⟨rfl, rfl, ?_, ?_, ?_, fun q2 l2 h => enqueue_seen q2 l2 url h,
      fun q2 pd => seen_get_next q2 pd⟩
    · show dpGet (dqAppend q.product_requests d url) d = _
      exact dpGet_dqAppend_self _ d url
    · show q.category_requests.length +
        ((dqAppend q.product_requests d url).map (fun e => e.2.length)).sum +
        q.other_requests.length = _
      rw [sum_len_dqAppend _ d url hn]
      unfold PriorityRequestQueue.total_requests
      omega
    · intro l2
      exact enqueue_seen _ l2 url hmem
  | other =>
    unfold PriorityRequestQueue.enqueue
      PriorityRequestQueue.add_other_request
    dsimp only
    rw [if_neg hf]
    refine ⟨rfl, rfl, rfl, ?_, ?_, fun q2 l2 h => enqueue_seen q2 l2 url h,
      fun q2 pd => seen_get_next q2 pd⟩
    · unfold PriorityRequestQueue.total_requests
      dsimp only
      simp only [List.length_append, List.length_singleton]
      omega
    · intro l2
      exact enqueue_seen _ l2 url hmem

/-- Witness for C4: admitting url u into the product lane /d of the fresh
queue, then re-admitting it through the category lane. -/
theorem c4_enqueue_dedup_witness :
    (initQueue.enqueue (Lane.product "/d") "u").1 = true ∧
      (initQueue.enqueue (Lane.product "/d") "u").2.seen_requests =
        initQueue.seen_requests ++ [request_fingerprint "u"] ∧
      (initQueue.enqueue (Lane.product "/d") "u").2.laneList
          (Lane.product "/d") =
        initQueue.laneList (Lane.product "/d") ++ ["u"] ∧
      (initQueue.enqueue (Lane.product "/d") "u").2.total_requests =
        initQueue.total_requests + 1 ∧
      (∀ l2, (initQueue.enqueue (Lane.product "/d") "u").2.enqueue l2 "u" =
        (false, (initQueue.enqueue (Lane.product "/d") "u").2)) ∧
      (∀ (q2 : PriorityRequestQueue) (l2 : Lane),
        request_fingerprint "u" ∈ q2.seen_requests →
          q2.enqueue l2 "u" = (false, q2)) ∧
      (∀ (q2 : PriorityRequestQueue) (pd : Option String),
        (q2.get_next_request pd).2.seen_requests = q2.seen_requests) :=
  c4_enqueue_dedup initQueue "u" (Lane.product "/d") (by decide) (by decide)

/-- C2 counterexample: the claimed equivalence fails in a reachable state.
Register /a, discover u there, report u completed (the directory becomes
Completed with 1 of 1 products terminal), then discover a second product
v: /a is still in the completed set although completedCount(1) +
failedCount(0) is now below totalDiscoveredProducts(2). -/
theorem c2_completion_characterization_counterexample :
    "/a" ∈ (runOps [TrackerOp.addDirectory "/a" (some 1) none,
        TrackerOp.addProduct "/a" "u", TrackerOp.markCompleted "u",
        TrackerOp.addProduct "/a" "v"]).1.completed_directories ∧
      ((lookupA (runOps [TrackerOp.addDirectory "/a" (some 1) none,
          TrackerOp.addProduct "/a" "u", TrackerOp.markCompleted "u",
          TrackerOp.addProduct "/a" "v"]).1.directories "/a").map
            (fun i => i.products_completed)).getD 0 +
          (runOps [TrackerOp.addDirectory "/a" (some 1) none,
            TrackerOp.addProduct "/a" "u", TrackerOp.markCompleted "u",
            TrackerOp.addProduct "/a" "v"]).1.failedCountFor "/a" <
        (dpGet (runOps [TrackerOp.addDirectory "/a" (some 1) none,
          TrackerOp.addProduct "/a" "u", TrackerOp.markCompleted "u",
          TrackerOp.addProduct "/a" "v"]).1.directory_products "/a").length := by
  decide

/-- C2 amended: the inequality characterizes when a directory is ADDED to
the completed set, not when it stays there.  For a registered path p, the
completion check leaves a directory in the completed set exactly if it was
already there or it is p and completedCount + failedCount has reached the
number of distinct discovered products, which must be positive; and in
every reachable tracker state a Completed directory has at least one
discovered product (a zero-product directory is never Completed).  The
only-if direction of the original claim fails because later discoveries
raise the total while Completed is sticky. -/
theorem c2_completion_characterization_amended :
    (∀ (t : DirectoryTracker) (p : String) (info : DirInfo) (d : String),
      lookupA t.directories p = some info →
        (d ∈ (t.check_directory_completion p).completed_directories ↔
          d ∈ t.completed_directories ∨
            (d = p ∧
              (dpGet t.directory_products p).length ≤
                info.products_completed + t.failedCountFor p ∧
              0 < (dpGet t.directory_products p).length))) ∧
      (∀ t : DirectoryTracker, ReachableT t →
        ∀ d ∈ t.completed_directories, dpGet t.directory_products d ≠ []) := by
  constructor
  · intro t p info d hreg
    unfold DirectoryTracker.check_directory_completion
    by_cases h1 : p ∈ t.completed_directories
    · rw [if_pos h1]
      constructor
      · exact Or.inl
      · rintro (hd | ⟨rfl, hcond⟩)
        · exact hd
        · exact h1
    · rw [if_neg h1, hreg]
      dsimp only
      by_cases h3 :
          (dpGet t.directory_products p).length ≤
              info.products_completed + t.failedCountFor p ∧
            0 < (dpGet t.directory_products p).length
      · rw [if_pos h3]
        show d ∈ setAdd t.completed_directories p ↔ _
        rw [mem_setAdd]
        constructor
        · rintro (hd | rfl)
          · exact Or.inl hd
          · exact Or.inr ⟨rfl, h3⟩
        · rintro (hd | ⟨rfl, hcond⟩)
          · exact Or.inl hd
          · exact Or.inr rfl
      · rw [if_neg h3]
        constructor
        · exact Or.inl
        · rintro (hd | ⟨rfl, hcond⟩)
          · exact hd
          · exact absurd hcond h3
  · intro t hr d hd
    obtain ⟨c, hinv⟩ := reachableT_inv hr
    exact hinv.completed_nonempty d hd

/-- Witness for the amended C2: the completion check on a reachable state
with one completed product out of one, and the nonemptiness guarantee on
the resulting completed directory. -/
theorem c2_completion_characterization_amended_witness :
    ("/a" ∈ ((runOps [TrackerOp.addDirectory "/a" (some 1) none,
        TrackerOp.addProduct "/a" "u"]).1.check_directory_completion
          "/a").completed_directories ↔
      "/a" ∈ (runOps [TrackerOp.addDirectory "/a" (some 1) none,
          TrackerOp.addProduct "/a" "u"]).1.completed_directories ∨
        ("/a" = "/a" ∧
          (dpGet (runOps [TrackerOp.addDirectory "/a" (some 1) none,
            TrackerOp.addProduct "/a" "u"]).1.directory_products "/a").length ≤
            { level := 1, discovered_at := 0, parent := none
              products_discovered := 1, products_completed := 0
              status := DirStatus.discovered : DirInfo }.products_completed +
              (runOps [TrackerOp.addDirectory "/a" (some 1) none,
                TrackerOp.addProduct "/a" "u"]).1.failedCountFor "/a" ∧
          0 < (dpGet (runOps [TrackerOp.addDirectory "/a" (some 1) none,
            TrackerOp.addProduct "/a" "u"]).1.directory_products "/a").length)) ∧
      dpGet (runOps [TrackerOp.addDirectory "/a" (some 1) none,
          TrackerOp.addProduct "/a" "u",
          TrackerOp.markCompleted "u"]).1.directory_products "/a" ≠ [] :=
  ⟨c2_completion_characterization_amended.1
      (runOps [TrackerOp.addDirectory "/a" (some 1) none,
        TrackerOp.addProduct "/a" "u"]).1 "/a"
      { level := 1, discovered_at := 0, parent := none
        products_discovered := 1, products_completed := 0
        status := DirStatus.discovered } "/a" (by decide),
    c2_completion_characterization_amended.2
      (runOps [TrackerOp.addDirectory "/a" (some 1) none,
        TrackerOp.addProduct "/a" "u", TrackerOp.markCompleted "u"]).1
      ⟨[TrackerOp.addDirectory "/a" (some 1) none,
        TrackerOp.addProduct "/a" "u", TrackerOp.markCompleted "u"], rfl⟩
      "/a" (by decide)⟩

/-! ### Progress reporting -/

/-- The record returned by get_directory_progress for a registered path. -/
theorem gdp_some (t : DirectoryTracker) (p : String) (i : DirInfo)
    (h : lookupA t.directories p = some i) :
    t.get_directory_progress p = some
      { path := p
        total_products := (dpGet t.directory_products p).length
        completed_products := i.products_completed
        failed_products := t.failedCountFor p
        remaining_products := ((dpGet t.directory_products p).length : Int) -
          i.products_completed - t.failedCountFor p
        completion_rate :=
          ((i.products_completed + t.failedCountFor p : Nat) : ℚ) /
            ((max (dpGet t.directory_products p).length 1 : Nat) : ℚ)
        status := i.status
        level := i.level } := by
  unfold DirectoryTracker.get_directory_progress
  rw [h]

theorem max_cast_pos (tp : Nat) : (0 : ℚ) < ((max tp 1 : Nat) : ℚ) := by
  have h1 : 0 < max tp 1 := Nat.lt_of_lt_of_le Nat.zero_lt_one (le_max_right tp 1)
  exact_mod_cast h1

theorem rate_le_rate {c1 f1 c2 f2 tp : Nat} (hc : c1 ≤ c2) (hf : f1 ≤ f2) :
    ((c1 + f1 : Nat) : ℚ) / ((max tp 1 : Nat) : ℚ) ≤
      ((c2 + f2 : Nat) : ℚ) / ((max tp 1 : Nat) : ℚ) := by
  have hnum : ((c1 + f1 : Nat) : ℚ) ≤ ((c2 + f2 : Nat) : ℚ) := by
    exact_mod_cast Nat.add_le_add hc hf
  exact div_le_div_of_nonneg_right hnum (max_cast_pos tp).le |>.trans_eq rfl

/-- C6 counterexample: completionRate exceeds 1.0 after a duplicate
completion report (it reaches 2.0 with one product completed twice), and
it strictly decreases when a new product is discovered after a completed
one (from 1.0 down to 1/2), refuting both the bound and monotonicity. -/
theorem c6_completion_rate_counterexample :
    (∃ pr, (runOps [TrackerOp.addDirectory "/a" (some 1) none,
        TrackerOp.addProduct "/a" "u", TrackerOp.markCompleted "u",
        TrackerOp.markCompleted "u"]).1.get_directory_progress "/a" =
          some pr ∧ 1 < pr.completion_rate) ∧
      (∃ prA prB,
        (runOps [TrackerOp.addDirectory "/a" (some 1) none,
          TrackerOp.addProduct "/a" "u",
          TrackerOp.markCompleted "u"]).1.get_directory_progress "/a" =
            some prA ∧
        (runOps [TrackerOp.addDirectory "/a" (some 1) none,
          TrackerOp.addProduct "/a" "u", TrackerOp.markCompleted "u",
          TrackerOp.addProduct "/a" "v"]).1.get_directory_progress "/a" =
            some prB ∧
        prB.completion_rate < prA.completion_rate) := by
  constructor
  · have h1 : lookupA (runOps [TrackerOp.addDirectory "/a" (some 1) none,
        TrackerOp.addProduct "/a" "u", TrackerOp.markCompleted "u",
        TrackerOp.markCompleted "u"]).1.directories "/a" =
        some { level := 1, discovered_at := 0, parent := none
               products_discovered := 1, products_completed := 2
               status := DirStatus.completed } := by decide
    have h2 : (runOps [TrackerOp.addDirectory "/a" (some 1) none,
        TrackerOp.addProduct "/a" "u", TrackerOp.markCompleted "u",
        TrackerOp.markCompleted "u"]).1.failedCountFor "/a" = 0 := by decide
    have h3 : (dpGet (runOps [TrackerOp.addDirectory "/a" (some 1) none,
        TrackerOp.addProduct "/a" "u", TrackerOp.markCompleted "u",
        TrackerOp.markCompleted "u"]).1.directory_products "/a").length = 1 := by
      decide
    refine ⟨_, gdp_some _ "/a" _ h1, ?_⟩
    rw [h2, h3]
    norm_num
  · have h1 : lookupA (runOps [TrackerOp.addDirectory "/a" (some 1) none,
        TrackerOp.addProduct "/a" "u",
        TrackerOp.markCompleted "u"]).1.directories "/a" =
        some { level := 1, discovered_at := 0, parent := none
               products_discovered := 1, products_completed := 1
               status := DirStatus.completed } := by decide
    have h2 : (runOps [TrackerOp.addDirectory "/a" (some 1) none,
        TrackerOp.addProduct "/a" "u",
        TrackerOp.markCompleted "u"]).1.failedCountFor "/a" = 0 := by decide
    have h3 : (dpGet (runOps [TrackerOp.addDirectory "/a" (some 1) none,
        TrackerOp.addProduct "/a" "u",
        TrackerOp.markCompleted "u"]).1.directory_products "/a").length = 1 := by
      decide
    have h4 : lookupA (runOps [TrackerOp.addDirectory "/a" (some 1) none,
        TrackerOp.addProduct "/a" "u", TrackerOp.markCompleted "u",
        TrackerOp.addProduct "/a" "v"]).1.directories "/a" =
        some { level := 1, discovered_at := 0, parent := none
               products_discovered := 2, products_completed := 1
               status := DirStatus.completed } := by decide
    have h5 : (runOps [TrackerOp.addDirectory "/a" (some 1) none,
        TrackerOp.addProduct "/a" "u", TrackerOp.markCompleted "u",
        TrackerOp.addProduct "/a" "v"]).1.failedCountFor "/a" = 0 := by decide
    have h6 : (dpGet (runOps [TrackerOp.addDirectory "/a" (some 1) none,
        TrackerOp.addProduct "/a" "u", TrackerOp.markCompleted "u",
        TrackerOp.addProduct "/a" "v"]).1.directory_products "/a").length = 2 := by
      decide
    refine ⟨_, _, gdp_some _ "/a" _ h1, gdp_some _ "/a" _ h4, ?_⟩
    rw [h2, h3, h5, h6]
    norm_num

/-- C6 amended: Progress reports
completionRate = (completed + failed) / max(total, 1); the rate is always
nonnegative, it is at most 1.0 whenever completed + failed has not
exceeded the discovered total, and it never decreases under
mark_product_completed / mark_product_failed.  The unconditional bound and
monotonicity of the original claim fail: duplicate completion reports
push the rate above 1.0 and discovering a new product lowers it. -/
theorem c6_completion_rate_amended (t : DirectoryTracker) (p : String)
    (i : DirInfo) (h : lookupA t.directories p = some i) :
    ∃ pr, t.get_directory_progress p = some pr ∧
      pr.completion_rate =
        ((pr.completed_products + pr.failed_products : Nat) : ℚ) /
          ((max pr.total_products 1 : Nat) : ℚ) ∧
      0 ≤ pr.completion_rate ∧
      (pr.completed_products + pr.failed_products ≤ pr.total_products →
        pr.completion_rate ≤ 1) ∧
      (∀ u, ∃ pr2,
        (t.mark_product_completed u).2.get_directory_progress p = some pr2 ∧
          pr.completion_rate ≤ pr2.completion_rate) ∧
      (∀ u, ∃ pr2,
        (t.mark_product_failed u).2.get_directory_progress p = some pr2 ∧
          pr.completion_rate ≤ pr2.completion_rate) := by
  refine ⟨_, gdp_some t p i h, rfl, ?_, ?_, ?_, ?_⟩
  · exact div_nonneg (Nat.cast_nonneg _) (Nat.cast_nonneg _)
  · intro hle
    have hcast : ((i.products_completed + t.failedCountFor p : Nat) : ℚ) ≤
        ((max (dpGet t.directory_products p).length 1 : Nat) : ℚ) := by
      exact_mod_cast le_trans hle
        (le_max_left (dpGet t.directory_products p).length 1)
    exact div_le_one_of_le₀ hcast (Nat.cast_nonneg _)
  · intro u
    obtain ⟨he1, he2, he3, he4⟩ := mark_completed_effects t u
    obtain ⟨add, hadd⟩ := he4 p
    rw [h] at hadd
    obtain ⟨i2, hi2, hpc⟩ := Option.map_eq_some'.mp hadd
    refine ⟨_, gdp_some _ p i2 hi2, ?_⟩
    have hfc : (t.mark_product_completed u).2.failedCountFor p =
        t.failedCountFor p := failedCountFor_congr p he3 he2
    rw [he1, hfc, hpc]
    exact rate_le_rate (Nat.le_add_right _ _) (Nat.le_refl _)
  · intro u
    obtain ⟨he1, he2, he3, he4⟩ := mark_failed_effects t u
    have hadd := he4 p
    rw [h] at hadd
    obtain ⟨i2, hi2, hpc⟩ := Option.map_eq_some'.mp hadd
    refine ⟨_, gdp_some _ p i2 hi2, ?_⟩
    have hfc : t.failedCountFor p ≤
        (t.mark_product_failed u).2.failedCountFor p := by
      unfold DirectoryTracker.failedCountFor
      rw [he2]
      rcases he3 with hfo | hfo
      · rw [hfo]
      · rw [hfo, List.filter_append, List.length_append]
        exact Nat.le_add_right _ _
    rw [he1, hpc]
    exact rate_le_rate (Nat.le_refl _) hfc

/-- Witness for the amended C6 on a reachable tracker with one completed
product of one discovered. -/
theorem c6_completion_rate_amended_witness :
    ∃ pr, (runOps [TrackerOp.addDirectory "/a" (some 1) none,
        TrackerOp.addProduct "/a" "u",
        TrackerOp.markCompleted "u"]).1.get_directory_progress "/a" =
          some pr ∧
      pr.completion_rate =
        ((pr.completed_products + pr.failed_products : Nat) : ℚ) /
          ((max pr.total_products 1 : Nat) : ℚ) ∧
      0 ≤ pr.completion_rate ∧
      (pr.completed_products + pr.failed_products ≤ pr.total_products →
        pr.completion_rate ≤ 1) ∧
      (∀ u, ∃ pr2,
        ((runOps [TrackerOp.addDirectory "/a" (some 1) none,
          TrackerOp.addProduct "/a" "u",
          TrackerOp.markCompleted "u"]).1.mark_product_completed
            u).2.get_directory_progress "/a" = some pr2 ∧
          pr.completion_rate ≤ pr2.completion_rate) ∧
      (∀ u, ∃ pr2,
        ((runOps [TrackerOp.addDirectory "/a" (some 1) none,
          TrackerOp.addProduct "/a" "u",
          TrackerOp.markCompleted "u"]).1.mark_product_failed
            u).2.get_directory_progress "/a" = some pr2 ∧
          pr.completion_rate ≤ pr2.completion_rate) :=
  c6_completion_rate_amended
    (runOps [TrackerOp.addDirectory "/a" (some 1) none,
      TrackerOp.addProduct "/a" "u", TrackerOp.markCompleted "u"]).1 "/a"
    { level := 1, discovered_at := 0, parent := none
      products_discovered := 1, products_completed := 1
      status := DirStatus.completed } (by decide)

/-! ### Draining the queue without a priority directory -/

/-- Repeatedly call get_next_request with no priority directory, recording
the returned urls; fuel bounds the number of pulls. -/
def drainFuel : Nat → PriorityRequestQueue → List String
  | 0, _ => []
  | n + 1, q =>
    match q.get_next_request none with
    | (some url, q2) => url :: drainFuel n q2
    | (none, _) => []

theorem fallback_pred_eq :
    (fun e : String × List String =>
        decide (e.2 ≠ [] ∧ some e.1 ≠ (none : Option String))) =
      (fun e : String × List String => decide (e.2 ≠ [])) := by
  funext e
  simp

theorem gnr_none_cat_cons (q : PriorityRequestQueue) (c : String)
    (cs : List String) (hc : q.category_requests = c :: cs) :
    q.get_next_request none =
      (some c, { q with category_requests := cs }) := by
  unfold PriorityRequestQueue.get_next_request
    PriorityRequestQueue.get_next_from_category
  rw [hc]

theorem gnr_none_fallback_pop (q : PriorityRequestQueue) (k u : String)
    (du : List String) (hc : q.category_requests = [])
    (hf : q.product_requests.find? (fun e => decide (e.2 ≠ [])) =
      some (k, u :: du)) :
    q.get_next_request none =
      (some u,
        { q with product_requests :=
            modifyA q.product_requests k (fun s => s.tail) }) := by
  unfold PriorityRequestQueue.get_next_request
    PriorityRequestQueue.get_next_from_category
    PriorityRequestQueue.get_next_fallback
  rw [hc, fallback_pred_eq, hf]

theorem gnr_none_other_pop (q : PriorityRequestQueue) (u : String)
    (rest : List String) (hc : q.category_requests = [])
    (hf : q.product_requests.find? (fun e => decide (e.2 ≠ [])) = none)
    (ho : q.other_requests = u :: rest) :
    q.get_next_request none =
      (some u, { q with other_requests := rest }) := by
  unfold PriorityRequestQueue.get_next_request
    PriorityRequestQueue.get_next_from_category
    PriorityRequestQueue.get_next_fallback
  rw [hc, fallback_pred_eq, hf, ho]

theorem gnr_none_empty (q : PriorityRequestQueue)
    (hc : q.category_requests = [])
    (hf : q.product_requests.find? (fun e => decide (e.2 ≠ [])) = none)
    (ho : q.other_requests = []) :
    q.get_next_request none = (none, q) := by
  unfold PriorityRequestQueue.get_next_request
    PriorityRequestQueue.get_next_from_category
    PriorityRequestQueue.get_next_fallback
  rw [hc, fallback_pred_eq, hf, ho]

/-- Popping the head of the first non-empty product deque removes exactly
the head of the flattened lane contents. -/
theorem flatten_step :
    ∀ (l : List (String × List String)) (k u : String) (du : List String),
      (l.map Prod.fst).Nodup →
      l.find? (fun e => decide (e.2 ≠ [])) = some (k, u :: du) →
      (l.map Prod.snd).flatten =
        u :: ((modifyA l k (fun s => s.tail)).map Prod.snd).flatten := by
  intro l
  induction l with
  | nil =>
    intro k u du hnd hf
    simp at hf
  | cons e es ih =>
    intro k u du hnd hf
    simp only [List.map_cons, List.nodup_cons] at hnd
    by_cases hpe : e.2 = []
    · have hp : (decide (e.2 ≠ [])) = false := by simp [hpe]
      rw [List.find?_cons, hp] at hf
      have hkes : k ∈ es.map Prod.fst :=
        List.mem_map_of_mem _ (List.mem_of_find?_eq_some hf)
      have hek : ¬ e.1 = k := fun h => hnd.1 (h ▸ hkes)
      show (e.2 :: es.map Prod.snd).flatten = _
      rw [List.flatten_cons, hpe]
      rw [ih k u du hnd.2 hf]
      show [] ++ u :: ((modifyA es k (fun s => s.tail)).map Prod.snd).flatten =
        u :: (((if e.1 = k then (e.1, e.2.tail) else e) ::
          modifyA es k (fun s => s.tail)).map Prod.snd).flatten
      rw [if_neg hek]
      show u :: _ = u :: (e.2 :: (modifyA es k
        (fun s => s.tail)).map Prod.snd).flatten
      rw [List.flatten_cons, hpe]
      rfl
    · have hp : (decide (e.2 ≠ [])) = true := by simp [hpe]
      rw [List.find?_cons, hp] at hf
      have he : e = (k, u :: du) := Option.some_inj.mp hf
      have hknotin : k ∉ es.map Prod.fst := by
        have := hnd.1
        rw [he] at this
        exact this
      rw [he]
      show (u :: du) ++ (es.map Prod.snd).flatten = _
      show u :: du ++ (es.map Prod.snd).flatten =
        u :: (((if k = k then (k, (u :: du).tail) else (k, u :: du)) ::
          modifyA es k (fun s => s.tail)).map Prod.snd).flatten
      rw [if_pos rfl]
      have hmod : modifyA es k (fun s => s.tail) = es :=
        modifyA_of_not_mem _ hknotin
      rw [hmod]
      rfl

/-- C5 amended (fallback order): with the scheduler disabled, Next() is
get_next_request with no priority directory, and draining the queue that
way returns the category lane in FIFO order, then the per-directory
product lanes in directory insertion order (FIFO within each lane), then
the other lane in FIFO order.  This is lane-priority order, not global
FIFO admission order across lanes. -/
theorem c5_disabled_fallback_amended :
    (∀ s : DirectoryPriorityScheduler, s.scheduler_enabled = false →
      s.get_next_request = ((s.request_queue.get_next_request none).1,
        { s with request_queue :=
            (s.request_queue.get_next_request none).2 })) ∧
      (∀ (n : Nat) (q : PriorityRequestQueue), q.total_requests ≤ n →
        (q.product_requests.map Prod.fst).Nodup →
        drainFuel n q = q.category_requests ++
          (q.product_requests.map Prod.snd).flatten ++ q.other_requests) := by
  constructor
  · intro s hs
    unfold DirectoryPriorityScheduler.get_next_request
    rw [hs]
    rfl
  · intro n
    induction n with
    | zero =>
      intro q hle hnd
      unfold PriorityRequestQueue.total_requests at hle
      have hc : q.category_requests = [] :=
        List.eq_nil_of_length_eq_zero (by omega)
      have ho : q.other_requests = [] :=
        List.eq_nil_of_length_eq_zero (by omega)
      have hfl : (q.product_requests.map Prod.snd).flatten = [] := by
        have hlen : ((q.product_requests.map Prod.snd).flatten).length = 0 := by
          rw [List.length_flatten, List.map_map]
          have : (q.product_requests.map (List.length ∘ Prod.snd)) =
              q.product_requests.map (fun e => e.2.length) := rfl
          rw [this]
          omega
        exact List.eq_nil_of_length_eq_zero hlen
      rw [hc, ho, hfl]
      rfl
    | succ n ih =>
      intro q hle hnd
      cases hc : q.category_requests with
      | cons c cs =>
        unfold drainFuel
        rw [gnr_none_cat_cons q c cs hc]
        dsimp only
        have hle2 : ({ q with category_requests := cs } :
            PriorityRequestQueue).total_requests ≤ n := by
          unfold PriorityRequestQueue.total_requests at hle ⊢
          rw [hc] at hle
          simp only [List.length_cons] at hle
          dsimp only
          omega
        rw [ih { q with category_requests := cs } hle2 hnd]
        dsimp only
        simp
      | nil =>
        cases hf : q.product_requests.find?
            (fun e => decide (e.2 ≠ [])) with
        | some e =>
          obtain ⟨k, dq⟩ := e
          cases dq with
          | nil =>
            have := List.find?_some hf
            simp at this
          | cons u du =>
            unfold drainFuel
            rw [gnr_none_fallback_pop q k u du hc hf]
            dsimp only
            have hflat := flatten_step q.product_requests k u du hnd hf
            have hsum : ((modifyA q.product_requests k
                (fun s => s.tail)).map (fun e => e.2.length)).sum + 1 =
                (q.product_requests.map (fun e => e.2.length)).sum := by
              have hlen := congrArg List.length hflat
              rw [List.length_flatten, List.length_cons,
                List.length_flatten, List.map_map, List.map_map] at hlen
              have e1 : (q.product_requests.map (List.length ∘ Prod.snd)) =
                  q.product_requests.map (fun e => e.2.length) := rfl
              have e2 : ((modifyA q.product_requests k
                  (fun s => s.tail)).map (List.length ∘ Prod.snd)) =
                  (modifyA q.product_requests k
                    (fun s => s.tail)).map (fun e => e.2.length) := rfl
              rw [e1, e2] at hlen
              omega
            have hle2 :
                ({ q with product_requests :=
                      modifyA q.product_requests k (fun s => s.tail) } :
                  PriorityRequestQueue).total_requests ≤ n := by
              unfold PriorityRequestQueue.total_requests at hle ⊢
              dsimp only
              omega
            have hnd2 :
                (({ q with product_requests :=
                      modifyA q.product_requests k (fun s => s.tail) } :
                  PriorityRequestQueue).product_requests.map Prod.fst).Nodup := by
              dsimp only
              rw [map_fst_modifyA]
              exact hnd
            rw [ih _ hle2 hnd2]
            dsimp only
            rw [hc, hflat]
            simp
        | none =>
          have hfl : (q.product_requests.map Prod.snd).flatten = [] := by
            rw [List.flatten_eq_nil_iff]
            intro x hx
            rcases List.mem_map.mp hx with ⟨e, he, rfl⟩
            have := List.find?_eq_none.mp hf e he
            simpa using this
          cases ho : q.other_requests with
          | cons u rest =>
            unfold drainFuel
            rw [gnr_none_other_pop q u rest hc hf ho]
            dsimp only
            have hsum : (q.product_requests.map (fun e => e.2.length)).sum = 0 := by
              have hlen := congrArg List.length hfl
              rw [List.length_flatten, List.map_map] at hlen
              have e1 : (q.product_requests.map (List.length ∘ Prod.snd)) =
                  q.product_requests.map (fun e => e.2.length) := rfl
              rw [e1] at hlen
              simpa using hlen
            have hle2 : ({ q with other_requests := rest } :
                PriorityRequestQueue).total_requests ≤ n := by
              unfold PriorityRequestQueue.total_requests at hle ⊢
              rw [hc, ho] at hle
              dsimp only
              rw [hc]
              simp only [List.length_nil, List.length_cons] at hle ⊢
              omega
            rw [ih _ hle2 hnd]
            dsimp only
            rw [hc, hfl]
            simp
          | nil =>
            unfold drainFuel
            rw [gnr_none_empty q hc hf ho]
            dsimp only
            rw [hfl]
            rfl

/-- C5 counterexample: global FIFO admission order is violated after
Disable().  A product request p is admitted before a category request c
(the seen set records the admission order), yet the first disabled Next()
returns c, because disabled mode still serves the category lane first. -/
theorem c5_disabled_fallback_counterexample :
    ((((initScheduler.add_product_request "p" "/d" 0).2.add_category_request
          "c").2.disable_scheduler).get_next_request).1 = some "c" ∧
      (((initScheduler.add_product_request "p" "/d" 0).2.add_category_request
          "c").2.disable_scheduler).request_queue.seen_requests =
        [request_fingerprint "p", request_fingerprint "c"] ∧
      some "c" ≠ some "p" := by
  decide

/-- Witness for the amended C5: the fresh scheduler with one product and
one category request, disabled; its queue drains category first, then the
product lane. -/
theorem c5_disabled_fallback_amended_witness :
    ((((initScheduler.add_product_request "p" "/d" 0).2.add_category_request
        "c").2.disable_scheduler).get_next_request =
      (((((initScheduler.add_product_request "p" "/d"
          0).2.add_category_request
            "c").2.disable_scheduler).request_queue.get_next_request none).1,
        { (((initScheduler.add_product_request "p" "/d"
            0).2.add_category_request "c").2.disable_scheduler) with
          request_queue :=
            ((((initScheduler.add_product_request "p" "/d"
              0).2.add_category_request
                "c").2.disable_scheduler).request_queue.get_next_request
              none).2 })) ∧
      drainFuel (((initScheduler.add_product_request "p" "/d"
          0).2.add_category_request
            "c").2.disable_scheduler).request_queue.total_requests
          (((initScheduler.add_product_request "p" "/d"
            0).2.add_category_request "c").2.disable_scheduler).request_queue =
        (((initScheduler.add_product_request "p" "/d"
          0).2.add_category_request
            "c").2.disable_scheduler).request_queue.category_requests ++
          ((((initScheduler.add_product_request "p" "/d"
            0).2.add_category_request
              "c").2.disable_scheduler).request_queue.product_requests.map
            Prod.snd).flatten ++
          (((initScheduler.add_product_request "p" "/d"
            0).2.add_category_request
              "c").2.disable_scheduler).request_queue.other_requests :=
  ⟨c5_disabled_fallback_amended.1 _ rfl,
    c5_disabled_fallback_amended.2 _ _ (Nat.le_refl _) (by decide)⟩

/-- C3: priority selection rule of get_next_priority_directory on
reachable tracker states.  An Active non-completed directory is returned
unchanged when one exists; the none sentinel is returned, with no state
change, exactly when every registered directory is Completed; otherwise
the promoted directory is registered, non-completed, of minimal level
among non-completed directories, and among those of minimal level it has
the strictly earliest discoveredAt (equivalently, earliest registration). -/
theorem c3_priority_selection (t : DirectoryTracker) (hr : ReachableT t) :
    (∀ d, d ∈ t.active_directories → d ∉ t.completed_directories →
      t.get_next_priority_directory = (some d, t)) ∧
      (t.get_next_priority_directory.1 = none ↔
        ∀ p ∈ t.directories.map Prod.fst, p ∈ t.completed_directories) ∧
      (t.get_next_priority_directory.1 = none →
        t.get_next_priority_directory.2 = t) ∧
      ((∀ a ∈ t.active_directories, a ∈ t.completed_directories) →
        ∀ d, t.get_next_priority_directory.1 = some d →
          ∃ i, lookupA t.directories d = some i ∧
            d ∉ t.completed_directories ∧
            (∀ e ∈ t.directories, e.1 ∉ t.completed_directories →
              i.level ≤ e.2.level) ∧
            (∀ e ∈ t.directories, e.1 ∉ t.completed_directories →
              e.2.level = i.level → e.1 ≠ d →
                i.discovered_at < e.2.discovered_at)) := by
  obtain ⟨c, hinv⟩ := reachableT_inv hr
  refine ⟨?_, ?_, ?_, ?_⟩
  · intro d hd hdc
    have hone : t.active_directories = [d] := by
      rcases hact : t.active_directories with _ | ⟨x, xs⟩
      · rw [hact] at hd
        simp at hd
      · rcases xs with _ | ⟨y, ys⟩
        · rw [hact] at hd
          simp at hd
          rw [hd]
        · exfalso
          have hl := hinv.active_len
          rw [hact] at hl
          simp at hl
    have hpred : (!(t.is_directory_completed d)) = true := by
      simp [DirectoryTracker.is_directory_completed, hdc]
    have hfind : t.active_directories.find?
        (fun p => !(t.is_directory_completed p)) = some d := by
      rw [hone]
      exact List.find?_cons_of_pos _ hpred
    unfold DirectoryTracker.get_next_priority_directory
    rw [hfind]
  · unfold DirectoryTracker.get_next_priority_directory
    cases hfd : t.active_directories.find?
        (fun p => !(t.is_directory_completed p)) with
    | some p =>
      dsimp only
      constructor
      · intro h
        simp at h
      · intro hall
        exfalso
        have hp := List.find?_some hfd
        have hpm := List.mem_of_find?_eq_some hfd
        have hpnc : p ∉ t.completed_directories := by
          simpa [DirectoryTracker.is_directory_completed] using hp
        exact hpnc (hall p (hinv.active_registered p hpm))
    | none =>
      dsimp only
      cases hs : (t.directories.filter
          (fun e => decide (e.1 ∉ t.completed_directories))).insertionSort
          DirectoryTracker.levelLE with
      | nil =>
        dsimp only
        constructor
        · intro _ pth hpth
          have hav : t.directories.filter
              (fun e => decide (e.1 ∉ t.completed_directories)) = [] := by
            have hl := congrArg List.length hs
            rw [List.length_insertionSort] at hl
            exact List.eq_nil_of_length_eq_zero (by simpa using hl)
          rcases List.mem_map.mp hpth with ⟨e, he, rfl⟩
          by_contra hnc
          have hin : e ∈ t.directories.filter
              (fun e => decide (e.1 ∉ t.completed_directories)) :=
            List.mem_filter.mpr ⟨he, by simpa using hnc⟩
          rw [hav] at hin
          simp at hin
        · intro _
          rfl
      | cons sel rest =>
        dsimp only
        constructor
        · intro h
          simp at h
        · intro hall
          exfalso
          have hsel : sel ∈ t.directories.filter
              (fun e => decide (e.1 ∉ t.completed_directories)) :=
            (List.mem_insertionSort _).mp (hs ▸ List.mem_cons_self sel rest)
          have hselnc : sel.1 ∉ t.completed_directories := by
            have := List.of_mem_filter hsel
            simpa using this
          exact hselnc (hall sel.1
            (List.mem_map_of_mem _ (List.mem_of_mem_filter hsel)))
  · unfold DirectoryTracker.get_next_priority_directory
    cases hfd : t.active_directories.find?
        (fun p => !(t.is_directory_completed p)) with
    | some p =>
      dsimp only
      intro h
      simp at h
    | none =>
      dsimp only
      cases hs : (t.directories.filter
          (fun e => decide (e.1 ∉ t.completed_directories))).insertionSort
          DirectoryTracker.levelLE with
      | nil =>
        dsimp only
        intro _
        rfl
      | cons sel rest =>
        dsimp only
        intro h
        simp at h
  · intro hall d
    have hfd : t.active_directories.find?
        (fun p => !(t.is_directory_completed p)) = none := by
      rw [List.find?_eq_none]
      intro x hx
      simp [DirectoryTracker.is_directory_completed]
      exact hall x hx
    unfold DirectoryTracker.get_next_priority_directory
    rw [hfd]
    dsimp only
    cases hs : (t.directories.filter
        (fun e => decide (e.1 ∉ t.completed_directories))).insertionSort
        DirectoryTracker.levelLE with
    | nil =>
      dsimp only
      intro h
      simp at h
    | cons sel rest =>
      dsimp only
      intro heq
      obtain rfl : sel.1 = d := Option.some_inj.mp heq
      have hndp : (t.directories.filter
          (fun e => decide (e.1 ∉ t.completed_directories))).Nodup :=
        (List.Nodup.of_map Prod.fst hinv.dirs_nodup).filter _
      obtain ⟨hmem, hmin, pre, post, hdecomp, hpre⟩ :=
        insertionSort_head_first_min hndp hs
      refine ⟨sel.2, ?_, ?_, ?_, ?_⟩
      · exact lookupA_of_mem hinv.dirs_nodup (List.mem_of_mem_filter hmem)
      · have := List.of_mem_filter hmem
        simpa using this
      · intro e he henc
        exact hmin e (List.mem_filter.mpr ⟨he, by simpa using henc⟩)
      · intro e he henc hlvl hne
        have hef : e ∈ t.directories.filter
            (fun e => decide (e.1 ∉ t.completed_directories)) :=
          List.mem_filter.mpr ⟨he, by simpa using henc⟩
        have hene : e ≠ sel := fun h => hne (by rw [h])
        rw [hdecomp] at hef
        have hpw : (pre ++ sel :: post).Pairwise
            (fun a b => a.2.discovered_at < b.2.discovered_at) := by
          have h1 := hinv.disc_pairwise
          rw [List.pairwise_map] at h1
          have h2 := h1.sublist
            (@List.filter_sublist (String × DirInfo)
              (fun e => decide (e.1 ∉ t.completed_directories)) t.directories)
          rw [hdecomp] at h2
          exact h2
        rcases List.mem_append.mp hef with hpre2 | hpost
        · have hlt := hpre e hpre2
          omega
        · rcases List.mem_cons.mp hpost with h | hpost2
          · exact absurd h hene
          · exact List.rel_of_pairwise_cons
              (List.pairwise_append.mp hpw).2.1 hpost2

/-- Witness for C3 at a reachable state where /e (level 1) was promoted
and is the active non-completed directory: it is returned unchanged. -/
theorem c3_priority_selection_witness :
    (runOps [TrackerOp.addDirectory "/e" (some 1) none,
      TrackerOp.addDirectory "/b" (some 2) none,
      TrackerOp.nextPriority]).1.get_next_priority_directory =
      (some "/e",
        (runOps [TrackerOp.addDirectory "/e" (some 1) none,
          TrackerOp.addDirectory "/b" (some 2) none,
          TrackerOp.nextPriority]).1) :=
  (c3_priority_selection _
    ⟨[TrackerOp.addDirectory "/e" (some 1) none,
      TrackerOp.addDirectory "/b" (some 2) none,
      TrackerOp.nextPriority], rfl⟩).1 "/e" (by decide) (by decide)

/-! ### The two-directory scenario of the spec -/

/-- The scenario state: /electronics registered at level 1, /books at
level 2, product work phone1 and phone2 added for /electronics and book1
for /books, scheduler enabled (the default). -/
def c1Scenario : DirectoryPriorityScheduler :=
  let s1 := initScheduler.discover_category "/electronics" (some 1) none 0
  let s2 := s1.discover_category "/books" (some 2) none 1
  let s3 := (s2.add_product_request "phone1" "/electronics" 2).2
  let s4 := (s3.add_product_request "phone2" "/electronics" 3).2
  (s4.add_product_request "book1" "/books" 4).2

/-- Three pulls with no terminal reports in between. -/
def c1Pull1 : Option String × DirectoryPriorityScheduler :=
  c1Scenario.get_next_request

def c1Pull2 : Option String × DirectoryPriorityScheduler :=
  c1Pull1.2.get_next_request

def c1Pull3 : Option String × DirectoryPriorityScheduler :=
  c1Pull2.2.get_next_request

/-- C1 counterexample: in the scenario run where Next() is called three
times with no terminal report, the third call returns book1 although
neither phone has been reported terminal and /electronics is not
Completed: the fallback step of get_next_request serves other directories
as soon as the priority lane is drained. -/
theorem c1_strict_gating_counterexample :
    c1Pull1.1 = some "phone1" ∧ c1Pull2.1 = some "phone2" ∧
      c1Pull3.1 = some "book1" ∧
      c1Pull2.2.directory_tracker.is_directory_completed "/electronics" =
        false ∧
      c1Pull2.2.directory_tracker.completed_products = [] ∧
      c1Pull2.2.directory_tracker.failed_products = [] := by
  decide

/-- The disciplined run: each dequeued phone is reported terminal before
the next pull. -/
def c1Seq1 : Option String × DirectoryPriorityScheduler :=
  c1Scenario.get_next_request

def c1Seq2 : Option String × DirectoryPriorityScheduler :=
  (c1Seq1.2.mark_product_completed "phone1").get_next_request

def c1Seq3 : Option String × DirectoryPriorityScheduler :=
  (c1Seq2.2.mark_product_completed "phone2").get_next_request

/-- C1 amended: Next() prefers the priority directory lane but falls back
to other directories once that lane is drained, so strict gating holds
only until the priority lane empties.  In the scenario run where every
dequeued product is reported terminal before the next pull, the pulls
return phone1, then phone2, and book1 only on the pull at which
/electronics is already Completed; before phone2 was reported,
/electronics was not Completed. -/
theorem c1_strict_gating_amended :
    c1Seq1.1 = some "phone1" ∧ c1Seq2.1 = some "phone2" ∧
      c1Seq3.1 = some "book1" ∧
      (c1Seq2.2.mark_product_completed
        "phone2").directory_tracker.is_directory_completed "/electronics" =
        true ∧
      c1Seq2.2.directory_tracker.is_directory_completed "/electronics" =
        false := by
  decide

end Vivbliss
